import Mathlib

/-!
Verification of the sucredb vnode replication core (src/vnode.rs) against its
natural-language specification.  The data model and the operations are a
shallow embedding of the Rust source: pure Lean functions over explicit state,
with machine integers modelled as Nat (taking mod 2^w where a cast occurs in
the source), Instant modelled as a millisecond count passed explicitly, and
panicking paths modelled as Option.none.  The clock library (version_vector.rs)
and the expiring map (inflightmap.rs) are not part of the sources provided;
their operations are modelled from the specification and are marked as such.
-/

namespace Sucredb

/-!
Scalar types of the source are all embedded as Nat: node ids (64-bit cluster
ids), versions (64-bit per-node counters), cookies (128-bit session ids),
client tokens, key bytes and value bytes (the last two as opaque codes).
-/

/-- PEER_LOG_SIZE from vnode.rs: 1024 * 1024 / (32 + 16). -/
def PEER_LOG_SIZE : Nat := 1024 * 1024 / (32 + 16)

/-- RECOVER_FAST_FORWARD from vnode.rs. -/
def RECOVER_FAST_FORWARD : Nat := 1000000

/-- SYNC_INFLIGHT_MAX from vnode.rs. -/
def SYNC_INFLIGHT_MAX : Nat := 10

/-- SYNC_INFLIGHT_TIMEOUT_MS from vnode.rs. -/
def SYNC_INFLIGHT_TIMEOUT_MS : Nat := 2000

/-- SYNC_TIMEOUT_MS from vnode.rs: SYNC_INFLIGHT_TIMEOUT_MS * 31 / 10. -/
def SYNC_TIMEOUT_MS : Nat := SYNC_INFLIGHT_TIMEOUT_MS * 31 / 10

/-- ZOMBIE_TIMEOUT_MS from vnode.rs: equal to SYNC_TIMEOUT_MS. -/
def ZOMBIE_TIMEOUT_MS : Nat := SYNC_TIMEOUT_MS

/-! ### Association-list helpers

HashMap and BTreeMap values from the source are embedded as association
lists; the helpers below mirror lookup, remove, in-place update and insert. -/

/-- Find the value bound to key k (first occurrence). -/
def assocFind {β : Type} : List (Nat × β) → Nat → Option β
  | [], _ => none
  | (k', v) :: rest, k => if k' = k then some v else assocFind rest k

/-- Remove the first binding of key k. -/
def assocRemove {β : Type} : List (Nat × β) → Nat → List (Nat × β)
  | [], _ => []
  | (k', v) :: rest, k => if k' = k then rest else (k', v) :: assocRemove rest k

/-- Replace the value at key k, keeping position; no-op when k is absent. -/
def assocUpdate {β : Type} : List (Nat × β) → Nat → β → List (Nat × β)
  | [], _, _ => []
  | (k', v) :: rest, k, b =>
      if k' = k then (k, b) :: rest else (k', v) :: assocUpdate rest k b

/-- Replace the value at key k, or append a new binding when k is absent. -/
def assocSet {β : Type} : List (Nat × β) → Nat → β → List (Nat × β)
  | [], k, b => [(k, b)]
  | (k', v) :: rest, k, b =>
      if k' = k then (k, b) :: rest else (k', v) :: assocSet rest k b

theorem assocFind_cons {β : Type} (k' : Nat) (v : β) (rest : List (Nat × β)) (k : Nat) :
    assocFind ((k', v) :: rest) k = if k' = k then some v else assocFind rest k := rfl

theorem assocUpdate_keys {β : Type} (l : List (Nat × β)) (k : Nat) (b : β) :
    (assocUpdate l k b).map Prod.fst = l.map Prod.fst := by
  induction l with
  | nil => rfl
  | cons hd tl ih =>
      obtain ⟨k', v⟩ := hd
      by_cases h : k' = k <;> simp [assocUpdate, h, ih]

theorem assocFind_eq_none_iff {β : Type} (l : List (Nat × β)) (c : Nat) :
    assocFind l c = none ↔ c ∉ l.map Prod.fst := by
  induction l with
  | nil => simp [assocFind]
  | cons hd tl ih =>
      obtain ⟨k', v⟩ := hd
      by_cases hk : k' = c
      · simp [assocFind, hk]
      · simp [assocFind, hk, ih, Ne.symm hk]

theorem assocFind_none_update {β : Type} (l : List (Nat × β)) (k c : Nat) (b : β)
    (h : assocFind l c = none) : assocFind (assocUpdate l k b) c = none := by
  rw [assocFind_eq_none_iff] at h ⊢
  rwa [assocUpdate_keys]

theorem assocRemove_sublist {β : Type} (l : List (Nat × β)) (k : Nat) :
    (assocRemove l k).Sublist l := by
  induction l with
  | nil => simp [assocRemove]
  | cons hd tl ih =>
      obtain ⟨k', v⟩ := hd
      by_cases hk : k' = k
      · rw [assocRemove]
        simp only [if_pos hk]
        exact (List.sublist_cons_self _ _)
      · rw [assocRemove]
        simp only [if_neg hk]
        exact ih.cons₂ _

theorem assocFind_none_remove {β : Type} (l : List (Nat × β)) (k c : Nat)
    (h : assocFind l c = none) : assocFind (assocRemove l k) c = none := by
  rw [assocFind_eq_none_iff] at h ⊢
  intro hmem
  exact h (((assocRemove_sublist l k).map Prod.fst).mem hmem)

theorem assocRemove_nodup {β : Type} (l : List (Nat × β)) (k : Nat)
    (hnd : (l.map Prod.fst).Nodup) : ((assocRemove l k).map Prod.fst).Nodup :=
  ((assocRemove_sublist l k).map Prod.fst).nodup hnd

theorem assocFind_remove_self {β : Type} (l : List (Nat × β)) (c : Nat)
    (hnd : (l.map Prod.fst).Nodup) : assocFind (assocRemove l c) c = none := by
  induction l with
  | nil => simp [assocRemove, assocFind]
  | cons hd tl ih =>
      obtain ⟨k', v⟩ := hd
      simp only [List.map_cons, List.nodup_cons] at hnd
      by_cases hk : k' = c
      · subst hk
        rw [assocRemove]
        simp only [if_pos rfl]
        rw [assocFind_eq_none_iff]
        intro hmem
        exact hnd.1 hmem
      · rw [assocRemove]
        simp only [if_neg hk]
        rw [assocFind]
        simp only [if_neg hk]
        exact ih hnd.2

theorem assocUpdate_nodup {β : Type} (l : List (Nat × β)) (k : Nat) (b : β)
    (hnd : (l.map Prod.fst).Nodup) : ((assocUpdate l k b).map Prod.fst).Nodup := by
  rw [assocUpdate_keys]
  exact hnd

theorem assocFind_append_right {β : Type} (l : List (Nat × β)) (k : Nat) (b : β)
    (h : assocFind l k = none) : assocFind (l ++ [(k, b)]) k = some b := by
  induction l with
  | nil => simp [assocFind]
  | cons hd tl ih =>
      obtain ⟨k', v⟩ := hd
      by_cases hk : k' = k
      · simp [assocFind, hk] at h
      · simp only [assocFind, hk, if_neg hk, List.cons_append] at h ⊢
        exact ih h

/-! ### Bitmapped version vectors (version_vector.rs is not among the sources)

Modelled from the spec: a BitmappedVersion is a pair (base, bitmap) where
base is the largest V such that all versions at most V are present and the
bitmap holds the versions above base. -/

/-- Modelled from the spec: BitmappedVersion (BV) with base and gap bitmap. -/
structure BitmappedVersion where
  base : Nat
  bitmap : List Nat
deriving DecidableEq

instance : Inhabited BitmappedVersion := ⟨⟨0, []⟩⟩

/-- Modelled from the spec: version v is observed when v ≤ base or v is in the bitmap. -/
def BitmappedVersion.containsV (bv : BitmappedVersion) (v : Nat) : Bool :=
  0 < v && (v ≤ bv.base || bv.bitmap.contains v)

/-- Modelled from the spec: delta(other) yields versions present here but absent there. -/
def BitmappedVersion.delta (a b : BitmappedVersion) : List Nat :=
  ((List.range (a.base + 1)).filter fun v => 0 < v && !(b.containsV v)) ++
    (a.bitmap.filter fun v => !(b.containsV v))

/-- Modelled from the spec: the largest observed version. -/
def BitmappedVersion.maxKnown (bv : BitmappedVersion) : Nat :=
  max bv.base (bv.bitmap.foldr max 0)

/-- Modelled from the spec: record one more observed version. -/
def BitmappedVersion.addV (bv : BitmappedVersion) (v : Nat) : BitmappedVersion :=
  if v ≤ bv.base then bv
  else if v = bv.base + 1 then ⟨v, bv.bitmap⟩
  else ⟨bv.base, v :: bv.bitmap⟩

/-- Modelled from the spec: per-node union of two BVs. -/
def BitmappedVersion.union (a b : BitmappedVersion) : BitmappedVersion :=
  ⟨max a.base b.base, (a.bitmap ++ b.bitmap).filter fun v => max a.base b.base < v⟩

/-- Modelled from the spec: all versions of a are covered by b. -/
def BitmappedVersion.coveredBy (a b : BitmappedVersion) : Bool :=
  a.base ≤ b.base && a.bitmap.all fun v => b.containsV v

/-- Modelled from the spec: BitmappedVersionVector, a map NodeId to BV. -/
abbrev BitmappedVersionVector := List (Nat × BitmappedVersion)

/-- Plain version vector (client causal context): map NodeId to Version. -/
abbrev VersionVector := List (Nat × Nat)

/-- Modelled from the spec: get the BV of one node. -/
def BitmappedVersionVector.get (c : BitmappedVersionVector) (n : Nat) :
    Option BitmappedVersion := assocFind c n

/-- Modelled from the spec: advance(node, n) fast-forwards the base of that node. -/
def BitmappedVersionVector.advance (c : BitmappedVersionVector) (n : Nat) (k : Nat) :
    BitmappedVersionVector :=
  let bv := (assocFind c n).getD default
  assocSet c n ⟨bv.base + k, bv.bitmap⟩

/-- Modelled from the spec: event(node) advances and returns the next contiguous version. -/
def BitmappedVersionVector.event (c : BitmappedVersionVector) (n : Nat) :
    BitmappedVersionVector × Nat :=
  let bv := (assocFind c n).getD default
  let v := bv.maxKnown + 1
  (assocSet c n (bv.addV v), v)

/-- Modelled from the spec: record one observed dot in the vector. -/
def BitmappedVersionVector.addDot (c : BitmappedVersionVector) (n : Nat) (v : Nat) :
    BitmappedVersionVector :=
  let bv := (assocFind c n).getD default
  assocSet c n (bv.addV v)

/-- Modelled from the spec: join OR-merges, taking the per-node union. -/
def BitmappedVersionVector.join (a b : BitmappedVersionVector) : BitmappedVersionVector :=
  (a.map fun e => (e.1, e.2.union ((assocFind b e.1).getD default))) ++
    b.filter fun e => (assocFind a e.1).isNone

/-- Modelled from the spec: merge of the bootstrap snapshot into the clocks
(the exact source is not provided; modelled as the per-node union like join). -/
def BitmappedVersionVector.merge (a b : BitmappedVersionVector) : BitmappedVersionVector :=
  BitmappedVersionVector.join a b

/-- Modelled from the spec: a BVV holding a single dimension (from_version). -/
def BitmappedVersionVector.from_version (n : Nat) (bv : BitmappedVersion) :
    BitmappedVersionVector := [(n, bv)]

/-! ### Dotted causal containers (version_vector.rs is not among the sources) -/

/-- Modelled from the spec: DCC, a set of dots with values plus a summarizing BVV. -/
structure DottedCausalContainer where
  dots : List ((Nat × Nat) × Nat)
  vv : BitmappedVersionVector
deriving DecidableEq

/-- Empty container. -/
def DottedCausalContainer.new : DottedCausalContainer := ⟨[], []⟩

instance : Inhabited DottedCausalContainer := ⟨DottedCausalContainer.new⟩

/-- versions() iterator: the dots present in the container. -/
def DottedCausalContainer.versions (d : DottedCausalContainer) : List (Nat × Nat) :=
  d.dots.map Prod.fst

/-- is_empty: no live dots. -/
def DottedCausalContainer.is_empty (d : DottedCausalContainer) : Bool := d.dots.isEmpty

/-- Modelled from the spec: a dot is dominated by a BVV summary. -/
def dotDominated (bvv : BitmappedVersionVector) (dot : Nat × Nat) : Bool :=
  ((assocFind bvv dot.1).getD default).containsV dot.2

/-- Modelled from the spec: sync keeps dots present in both sides plus dots not
dominated by the summary of the other side, and joins the summaries. -/
def DottedCausalContainer.sync (a b : DottedCausalContainer) : DottedCausalContainer :=
  ⟨(a.dots.filter fun e => b.dots.contains e || !(dotDominated b.vv e.1)) ++
     (b.dots.filter fun e => !(a.dots.contains e) && !(dotDominated a.vv e.1)),
   a.vv.join b.vv⟩

/-- Modelled from the spec: add a new dot with its value. -/
def DottedCausalContainer.add (d : DottedCausalContainer) (n : Nat) (v : Nat)
    (val : Nat) : DottedCausalContainer :=
  ⟨d.dots ++ [((n, v), val)], d.vv.addDot n v⟩

/-- Modelled from the spec: discard(vv) drops dots dominated by a plain VV. -/
def DottedCausalContainer.discard (d : DottedCausalContainer) (vv : VersionVector) :
    DottedCausalContainer :=
  ⟨d.dots.filter fun e => !(e.1.2 ≤ (assocFind vv e.1.1).getD 0 : Bool),
   d.vv⟩

/-- Modelled from the spec: strip removes from the summary what the clocks imply. -/
def DottedCausalContainer.strip (d : DottedCausalContainer) (clocks : BitmappedVersionVector) :
    DottedCausalContainer :=
  ⟨d.dots, d.vv.filter fun e => !(e.2.coveredBy ((assocFind clocks e.1).getD default))⟩

/-- Modelled from the spec: fill re-adds the summary implied by the clocks. -/
def DottedCausalContainer.fill (d : DottedCausalContainer) (clocks : BitmappedVersionVector) :
    DottedCausalContainer :=
  ⟨d.dots, d.vv.join clocks⟩

/-- Modelled from the spec: add_to_bvv records every dot of the container. -/
def DottedCausalContainer.add_to_bvv (d : DottedCausalContainer)
    (clocks : BitmappedVersionVector) : BitmappedVersionVector :=
  d.dots.foldl (fun c e => c.addDot e.1.1 e.1.2) clocks

/-! ### VNodePeer: the bounded per-peer log (vnode.rs lines 66-175) -/

/-- VNodePeer from vnode.rs: knowledge high-water plus an ordered map
Nat to Key, embedded as an ascending association list. -/
structure VNodePeer where
  knowledge : Nat
  log : List (Nat × Nat)
deriving DecidableEq

/-- VNodePeer::new. -/
def VNodePeer.new : VNodePeer := ⟨0, []⟩

instance : Inhabited VNodePeer := ⟨VNodePeer.new⟩

/-- min_version(): the oldest logged version, or 0 when the log is empty
(the first key of the ascending association list). -/
def VNodePeer.min_version (p : VNodePeer) : Nat :=
  ((p.log.head?).map Prod.fst).getD 0

/-- get(version): lookup of one logged key. -/
def VNodePeer.get (p : VNodePeer) (version : Nat) : Option Nat :=
  assocFind p.log version

/-- Ordered insert into the BTreeMap embedding (replaces an equal version). -/
def sortedInsert : List (Nat × Nat) → Nat → Nat → List (Nat × Nat)
  | [], v, k => [(v, k)]
  | (v', k') :: rest, v, k =>
      if v < v' then (v, k) :: (v', k') :: rest
      else if v = v' then (v, k) :: rest
      else (v', k') :: sortedInsert rest v k

/-- VNodePeer::log (vnode.rs lines 148-162): insert when the version is above
the current minimum (computed before the insert) and evict the oldest entry
when the bound is exceeded.  Named logWrite because the structure field is
already named log. -/
def VNodePeer.logWrite (p : VNodePeer) (version : Nat) (key : Nat) : VNodePeer :=
  if p.min_version < version then
    { p with log :=
        if PEER_LOG_SIZE < (sortedInsert p.log version key).length then
          assocRemove (sortedInsert p.log version key) p.min_version
        else sortedInsert p.log version key }
  else p

/-- VNodePeer::clear. -/
def VNodePeer.clear (_p : VNodePeer) : VNodePeer := VNodePeer.new

/-- The embedding invariant of the BTreeMap: strictly ascending keys. -/
def logSorted (l : List (Nat × Nat)) : Prop :=
  List.Chain' (fun a b => a.1 < b.1) l

instance : IsTrans (Nat × Nat) (fun a b => a.1 < b.1) :=
  ⟨fun _ _ _ h1 h2 => lt_trans h1 h2⟩

theorem logSorted_head_lt {v0 : Nat} {k0 : Nat} {rest : List (Nat × Nat)}
    (hs : logSorted ((v0, k0) :: rest)) : ∀ e ∈ rest, v0 < e.1 := by
  have hp := (List.chain'_iff_pairwise (R := fun a b : Nat × Nat => a.1 < b.1)).1 hs
  intro e he
  exact (List.pairwise_cons.1 hp).1 e he

theorem sortedInsert_length_le (l : List (Nat × Nat)) (v : Nat) (k : Nat) :
    (sortedInsert l v k).length ≤ l.length + 1 := by
  induction l with
  | nil => simp [sortedInsert]
  | cons hd tl ih =>
      obtain ⟨v', k'⟩ := hd
      rw [sortedInsert]
      by_cases h1 : v < v'
      · simp [h1]
      · by_cases h2 : v = v'
        · simp [h1, h2]
        · simp only [if_neg h1, if_neg h2, List.length_cons]
          omega

theorem le_sortedInsert_length (l : List (Nat × Nat)) (v : Nat) (k : Nat) :
    l.length ≤ (sortedInsert l v k).length := by
  induction l with
  | nil => simp [sortedInsert]
  | cons hd tl ih =>
      obtain ⟨v', k'⟩ := hd
      rw [sortedInsert]
      by_cases h1 : v < v'
      · simp [h1]
      · by_cases h2 : v = v'
        · simp [h1, h2]
        · simp only [if_neg h1, if_neg h2, List.length_cons]
          omega

theorem sortedInsert_head_cases (l : List (Nat × Nat)) (v : Nat) (k : Nat) :
    (sortedInsert l v k).head? = some (v, k) ∨ (sortedInsert l v k).head? = l.head? := by
  induction l with
  | nil => simp [sortedInsert]
  | cons hd tl _ =>
      obtain ⟨v', k'⟩ := hd
      rw [sortedInsert]
      by_cases h1 : v < v'
      · simp [h1]
      · by_cases h2 : v = v'
        · simp [h1, h2]
        · simp [h1, h2]

theorem sortedInsert_sorted {l : List (Nat × Nat)} (v : Nat) (k : Nat)
    (hs : logSorted l) : logSorted (sortedInsert l v k) := by
  induction l with
  | nil => simp [sortedInsert, logSorted]
  | cons hd tl ih =>
      obtain ⟨v', k'⟩ := hd
      have htl : logSorted tl := hs.tail
      rw [sortedInsert]
      by_cases h1 : v < v'
      · simp only [if_pos h1]
        exact List.Chain'.cons h1 hs
      · by_cases h2 : v = v'
        · simp only [if_neg h1, if_pos h2]
          rw [logSorted, List.chain'_cons'] at hs ⊢
          refine ⟨fun y hy => ?_, hs.2⟩
          rw [h2]
          exact hs.1 y hy
        · simp only [if_neg h1, if_neg h2]
          rw [logSorted, List.chain'_cons']
          refine ⟨fun y hy => ?_, ih htl⟩
          rcases sortedInsert_head_cases tl v k with hc | hc
          · rw [hc] at hy
            simp only [Option.mem_def, Option.some_inj] at hy
            subst hy
            show v' < v
            omega
          · rw [hc] at hy
            rw [logSorted, List.chain'_cons'] at hs
            exact hs.1 y hy

theorem sortedInsert_keys_subset (l : List (Nat × Nat)) (v : Nat) (k : Nat) :
    ∀ c ∈ (sortedInsert l v k).map Prod.fst, c = v ∨ c ∈ l.map Prod.fst := by
  induction l with
  | nil => simp [sortedInsert]
  | cons hd tl ih =>
      obtain ⟨v', k'⟩ := hd
      intro c hc
      rw [sortedInsert] at hc
      by_cases h1 : v < v'
      · simp only [if_pos h1, List.map_cons, List.mem_cons] at hc
        rcases hc with h | h | h
        · exact Or.inl h
        · exact Or.inr (by simp [h])
        · exact Or.inr (by simp [h])
      · by_cases h2 : v = v'
        · simp only [if_neg h1, if_pos h2, List.map_cons, List.mem_cons] at hc
          rcases hc with h | h
          · exact Or.inl h
          · exact Or.inr (by simp [h])
        · simp only [if_neg h1, if_neg h2, List.map_cons, List.mem_cons] at hc
          rcases hc with h | h
          · exact Or.inr (by simp [h])
          · rcases ih c h with h' | h'
            · exact Or.inl h'
            · exact Or.inr (by simp [h'])

theorem assocFind_sortedInsert_self (l : List (Nat × Nat)) (v : Nat)
    (k : Nat) : assocFind (sortedInsert l v k) v = some k := by
  induction l with
  | nil => simp [sortedInsert, assocFind]
  | cons hd tl ih =>
      obtain ⟨v', k'⟩ := hd
      rw [sortedInsert]
      by_cases h1 : v < v'
      · simp [assocFind, h1]
      · by_cases h2 : v = v'
        · simp [assocFind, h1, h2]
        · have hne : v' ≠ v := fun h => h2 h.symm
          simp [assocFind, h1, h2, hne, ih]

theorem assocFind_remove_ne {β : Type} (l : List (Nat × β)) (k c : Nat) (h : k ≠ c) :
    assocFind (assocRemove l k) c = assocFind l c := by
  induction l with
  | nil => simp [assocRemove]
  | cons hd tl ih =>
      obtain ⟨k', v⟩ := hd
      by_cases hk : k' = k
      · rw [assocRemove]
        simp only [if_pos hk]
        rw [assocFind]
        rw [if_neg (by rw [hk]; exact h)]
      · rw [assocRemove]
        simp only [if_neg hk]
        rw [assocFind, assocFind]
        by_cases hc : k' = c
        · simp [hc]
        · simp [hc, ih]

theorem sortedInsert_cons_of_lt {v0 : Nat} {k0 : Nat}
    (rest : List (Nat × Nat)) (v : Nat) (k : Nat) (h : v0 < v) :
    sortedInsert ((v0, k0) :: rest) v k = (v0, k0) :: sortedInsert rest v k := by
  have h1 : ¬ v < v0 := by omega
  have h2 : ¬ v = v0 := by omega
  rw [sortedInsert, if_neg h1, if_neg h2]

/-- The eviction step: inserting above the minimum of a nonempty sorted log and
removing that minimum is insertion into the tail. -/
theorem evict_eq_tail_insert {v0 : Nat} {k0 : Nat}
    (rest : List (Nat × Nat)) (v : Nat) (k : Nat) (h : v0 < v) :
    assocRemove (sortedInsert ((v0, k0) :: rest) v k) v0 = sortedInsert rest v k := by
  rw [sortedInsert_cons_of_lt rest v k h, assocRemove, if_pos rfl]

/-- Single-call preservation: logWrite keeps the log sorted and within bound. -/
theorem logWrite_preserves (p : VNodePeer) (v : Nat) (k : Nat)
    (hs : logSorted p.log) (hlen : p.log.length ≤ PEER_LOG_SIZE) :
    logSorted (p.logWrite v k).log ∧ (p.logWrite v k).log.length ≤ PEER_LOG_SIZE := by
  rw [VNodePeer.logWrite]
  by_cases hmin : p.min_version < v
  · rw [if_pos hmin]
    by_cases hev : PEER_LOG_SIZE < (sortedInsert p.log v k).length
    · simp only [if_pos hev]
      have h1 : (sortedInsert p.log v k).length ≤ p.log.length + 1 :=
        sortedInsert_length_le p.log v k
      have hlq : p.log.length = PEER_LOG_SIZE := by omega
      -- the log is nonempty, so the minimum is its head
      match hl : p.log with
      | [] =>
          rw [hl] at hlq
          rw [PEER_LOG_SIZE] at hlq
          simp at hlq
      | (v0, k0) :: rest =>
          rw [hl] at hs hev h1 hlq
          have hmin0 : p.min_version = v0 := by
            simp [VNodePeer.min_version, hl]
          rw [hmin0] at hmin ⊢
          rw [evict_eq_tail_insert rest v k hmin]
          refine ⟨sortedInsert_sorted v k hs.tail, ?_⟩
          have h2 := sortedInsert_length_le rest v k
          rw [sortedInsert_cons_of_lt rest v k hmin] at hev h1
          simp only [List.length_cons] at hev h1 hlq
          omega
    · simp only [if_neg hev]
      exact ⟨sortedInsert_sorted v k hs, by omega⟩
  · rw [if_neg hmin]
    exact ⟨hs, hlen⟩

/-- C8 helper: the bound and sortedness hold after any sequence of log calls. -/
theorem logWrite_fold_preserves (ops : List (Nat × Nat)) (p : VNodePeer)
    (hs : logSorted p.log) (hlen : p.log.length ≤ PEER_LOG_SIZE) :
    logSorted ((ops.foldl (fun q e => q.logWrite e.1 e.2) p).log) ∧
      ((ops.foldl (fun q e => q.logWrite e.1 e.2) p).log.length ≤ PEER_LOG_SIZE) := by
  induction ops generalizing p with
  | nil => exact ⟨hs, hlen⟩
  | cons op rest ih =>
      have h := logWrite_preserves p op.1 op.2 hs hlen
      exact ih (p.logWrite op.1 op.2) h.1 h.2

/-- C8: the peer log inserts only versions above the minimum, evicts the oldest
entry when the size bound is exceeded, min_version returns the smallest logged
version or 0 when empty, and the size never exceeds PEER_LOG_SIZE. -/
theorem c8_peer_log (p : VNodePeer)
    (hs : logSorted p.log) (hlen : p.log.length ≤ PEER_LOG_SIZE) :
    (∀ v k, v ≤ p.min_version → p.logWrite v k = p) ∧
    (∀ v k, p.min_version < v → (p.logWrite v k).get v = some k) ∧
    (∀ v k, p.min_version < v → PEER_LOG_SIZE < (sortedInsert p.log v k).length →
       (p.logWrite v k).get p.min_version = none ∧
       (p.logWrite v k).log.length = PEER_LOG_SIZE) ∧
    ((p.log = [] → p.min_version = 0) ∧
     (∀ e ∈ p.log, p.min_version ≤ e.1) ∧
     (p.log ≠ [] → p.min_version ∈ p.log.map Prod.fst)) ∧
    (∀ ops : List (Nat × Nat),
       ((ops.foldl (fun q e => q.logWrite e.1 e.2) p).log.length ≤ PEER_LOG_SIZE)) := by
  refine ⟨?_, ?_, ?_, ⟨?_, ?_, ?_⟩, ?_⟩
  · intro v k hv
    have hcond : ¬ p.min_version < v := by omega
    rw [VNodePeer.logWrite, if_neg hcond]
  · intro v k hv
    rw [VNodePeer.logWrite]
    simp only [if_pos hv]
    by_cases hev : PEER_LOG_SIZE < (sortedInsert p.log v k).length
    · simp only [if_pos hev]
      rw [VNodePeer.get]
      have hne : p.min_version ≠ v := by omega
      rw [assocFind_remove_ne _ _ _ hne]
      exact assocFind_sortedInsert_self p.log v k
    · simp only [if_neg hev]
      rw [VNodePeer.get]
      exact assocFind_sortedInsert_self p.log v k
  · intro v k hv hev
    rw [VNodePeer.logWrite]
    simp only [if_pos hv, if_pos hev]
    have h1 : (sortedInsert p.log v k).length ≤ p.log.length + 1 :=
      sortedInsert_length_le p.log v k
    have hlq : p.log.length = PEER_LOG_SIZE := by omega
    match hl : p.log with
    | [] =>
        rw [hl] at hlq
        rw [PEER_LOG_SIZE] at hlq
        simp at hlq
    | (v0, k0) :: rest =>
        rw [hl] at hs hev h1 hlq
        have hmin0 : p.min_version = v0 := by
          simp [VNodePeer.min_version, hl]
        rw [hmin0] at hv ⊢
        rw [evict_eq_tail_insert rest v k hv]
        constructor
        · rw [VNodePeer.get]
          rw [assocFind_eq_none_iff]
          intro hmem
          rcases sortedInsert_keys_subset rest v k v0 hmem with h | h
          · omega
          · rcases List.mem_map.1 h with ⟨e, he, hfst⟩
            have := logSorted_head_lt hs e he
            omega
        · rw [sortedInsert_cons_of_lt rest v k hv] at hev h1
          have h2 := sortedInsert_length_le rest v k
          simp only [List.length_cons] at hev h1 hlq
          omega
  · intro h
    simp [VNodePeer.min_version, h]
  · intro e he
    match hl : p.log with
    | [] => rw [hl] at he; simp at he
    | (v0, k0) :: rest =>
        rw [hl] at he hs
        have hmin0 : p.min_version = v0 := by
          simp [VNodePeer.min_version, hl]
        rw [hmin0]
        rcases List.mem_cons.1 he with h | h
        · simp [h]
        · exact le_of_lt (logSorted_head_lt hs e h)
  · intro h
    match hl : p.log with
    | [] => exact absurd hl h
    | (v0, k0) :: rest =>
        have hmin0 : p.min_version = v0 := by
          simp [VNodePeer.min_version, hl]
        rw [hmin0]
        simp
  · intro ops
    exact (logWrite_fold_preserves ops p hs hlen).2

/-- Witness for C8 at a concrete peer log. -/
theorem c8_peer_log_witness :
    logSorted ((⟨0, [(3, 30), (5, 50)]⟩ : VNodePeer).log) ∧
    (⟨0, [(3, 30), (5, 50)]⟩ : VNodePeer).logWrite 2 20 = ⟨0, [(3, 30), (5, 50)]⟩ ∧
    ((⟨0, [(3, 30), (5, 50)]⟩ : VNodePeer).logWrite 4 40).get 4 = some 40 := by
  have hsort : logSorted [(3, 30), (5, 50)] :=
    List.chain'_cons.mpr ⟨by norm_num, List.chain'_singleton _⟩
  have h := c8_peer_log ⟨0, [(3, 30), (5, 50)]⟩ hsort (by decide)
  exact ⟨hsort, h.1 2 20 (by decide), h.2.1 4 40 (by decide)⟩

/-! ### Fabric messages (fabric_msg.rs via fabric.rs) and emitted effects -/

/-- FabricMsgError from the fabric message module. -/
inductive FabricMsgError where
  | CookieNotFound
  | BadVNodeStatus
  | NoRoute
  | IOErr
deriving DecidableEq

/-- Result type of acks and fins (Rust Result with a FabricMsgError error). -/
inductive FabricResult (α : Type) where
  | ok (val : α)
  | err (e : FabricMsgError)
deriving DecidableEq

/-- Rust Result::is_ok. -/
def FabricResult.is_ok {α : Type} : FabricResult α → Bool
  | .ok _ => true
  | .err _ => false

/-- Rust Result::ok (Option of the success value). -/
def FabricResult.toOption {α : Type} : FabricResult α → Option α
  | .ok v => some v
  | .err _ => none

/-- MsgRemoteGet. -/
structure MsgRemoteGet where
  cookie : Nat
  vnode : Nat
  key : Nat
deriving DecidableEq

/-- MsgRemoteGetAck. -/
structure MsgRemoteGetAck where
  cookie : Nat
  vnode : Nat
  result : FabricResult DottedCausalContainer
deriving DecidableEq

/-- MsgRemoteSet. -/
structure MsgRemoteSet where
  cookie : Nat
  vnode : Nat
  key : Nat
  container : DottedCausalContainer
deriving DecidableEq

/-- MsgRemoteSetAck (success carries unit; the source carries the old value list). -/
structure MsgRemoteSetAck where
  vnode : Nat
  cookie : Nat
  result : FabricResult Unit
deriving DecidableEq

/-- MsgSyncStart: (none, none) means bootstrap, (some, some) means sync. -/
structure MsgSyncStart where
  cookie : Nat
  vnode : Nat
  target : Option Nat
  clock_in_peer : Option BitmappedVersion
deriving DecidableEq

/-- MsgSyncSend. -/
structure MsgSyncSend where
  cookie : Nat
  vnode : Nat
  seq : Nat
  key : Nat
  container : DottedCausalContainer
deriving DecidableEq

/-- MsgSyncAck. -/
structure MsgSyncAck where
  cookie : Nat
  vnode : Nat
  seq : Nat
deriving DecidableEq

/-- MsgSyncFin. -/
structure MsgSyncFin where
  cookie : Nat
  vnode : Nat
  result : FabricResult BitmappedVersionVector
deriving DecidableEq

/-- The typed fabric message set. -/
inductive FabricMsg where
  | remoteGet (m : MsgRemoteGet)
  | remoteGetAck (m : MsgRemoteGetAck)
  | remoteSet (m : MsgRemoteSet)
  | remoteSetAck (m : MsgRemoteSetAck)
  | syncStart (m : MsgSyncStart)
  | syncSend (m : MsgSyncSend)
  | syncAck (m : MsgSyncAck)
  | syncFin (m : MsgSyncFin)
deriving DecidableEq

/-- Observable effects of a handler run.  Client responses additionally record
the cookie of the ReqState being responded to (the source passes the token to
db.respond_get and db.respond_error; the cookie is recorded here so that the
at-most-once property can be stated per cookie). -/
inductive Event where
  | send (dest : Nat) (msg : FabricMsg)
  | respondGet (cookie : Nat) (token : Nat) (container : DottedCausalContainer)
  | respondSet (cookie : Nat) (token : Nat) (container : DottedCausalContainer)
  | respondError (cookie : Nat) (token : Nat)
  | saveState (shutdown : Bool)
  | storageFsync
  | promotePendingNode (vnode : Nat) (node : Nat)
deriving DecidableEq

/-! ### VNode state (vnode.rs lines 37-133) -/

/-- VNodeStatus (vnode.rs lines 23-35). -/
inductive VNodeStatus where
  | Ready
  | Recover
  | Bootstrap
  | Zombie
  | Absent
deriving DecidableEq

/-- Storage embedded as an association list from key to the stored (stripped)
container; the bincode serialization of the source is elided. -/
abbrev Storage := List (Nat × DottedCausalContainer)

/-- ReqState (vnode.rs lines 72-81): u8 counters are kept mod 256. -/
structure ReqState where
  replies : Nat
  succesfull : Nat
  required : Nat
  total : Nat
  proxied : Bool
  container : DottedCausalContainer
  token : Nat
deriving DecidableEq

/-- ReqState::new (vnode.rs lines 235-247): required is the constant 1 and
total is the replica count cast to u8. -/
def ReqState.new (token : Nat) (nodes : Nat) : ReqState :=
  { required := 1
    total := nodes % 256
    replies := 0
    succesfull := 0
    proxied := false
    container := DottedCausalContainer.new
    token := token }

/-- The IteratorFn of a sender session: either the log-driven key list (its
storage lookups happen at call time) or the materialized storage scan. -/
inductive IterFn where
  | logDriven (keys : List Nat)
  | scan (remaining : List (Nat × DottedCausalContainer))
deriving DecidableEq

/-- One step of the log-driven iterator: first logged key present in storage. -/
def nextLogKey : List Nat → Storage → Option ((Nat × DottedCausalContainer) × List Nat)
  | [], _ => none
  | k :: rest, storage =>
      match assocFind storage k with
      | some dcc => some ((k, dcc), rest)
      | none => nextLogKey rest storage

/-- One step of an iterator against the storage. -/
def IterFn.next : IterFn → Storage → Option ((Nat × DottedCausalContainer) × IterFn)
  | .logDriven keys, storage => (nextLogKey keys storage).map fun r => (r.1, .logDriven r.2)
  | .scan remaining, _ =>
      match remaining with
      | [] => none
      | e :: rest => some (e, .scan rest)

/-- Everything an iterator yields against a fixed storage. -/
def IterFn.toList : IterFn → Storage → List (Nat × DottedCausalContainer)
  | .logDriven keys, storage => keys.filterMap fun k => (assocFind storage k).map fun d => (k, d)
  | .scan remaining, _ => remaining

/-- Synchronization (vnode.rs lines 86-123): the four session variants.  The
sender inflight windows are embedded as lists of (seq, payload, deadline). -/
inductive Synchronization where
  | syncSender (clock_in_peer : BitmappedVersion) (clock_snapshot : BitmappedVersion)
      (iterator : IterFn) (inflight : List (Nat × (Nat × DottedCausalContainer) × Nat))
      (cookie : Nat) (peer : Nat) (target : Nat) (count : Nat) (last_receive : Nat)
  | syncReceiver (clock_in_peer : BitmappedVersion) (cookie : Nat) (peer : Nat) (target : Nat)
      (count : Nat) (last_receive : Nat) (starts_sent : Nat)
  | bootstrapSender (cookie : Nat) (peer : Nat) (clocks_snapshot : BitmappedVersionVector)
      (iterator : IterFn) (inflight : List (Nat × (Nat × DottedCausalContainer) × Nat))
      (count : Nat) (last_receive : Nat)
  | bootstrapReceiver (cookie : Nat) (peer : Nat) (count : Nat) (last_receive : Nat)
      (starts_sent : Nat)
deriving DecidableEq

/-- SyncResult (vnode.rs lines 125-133). -/
inductive SyncResult where
  | Done
  | Continue
  | RetryBoostrap
deriving DecidableEq

/-- VNodeState (vnode.rs lines 43-56).  Instants are millisecond counts. -/
structure VNodeState where
  num : Nat
  status : VNodeStatus
  last_status_change : Nat
  clocks : BitmappedVersionVector
  log : VNodePeer
  peers : List (Nat × VNodePeer)
  storage : Storage
  unflushed_coord_writes : Nat
  sync_nodes : List Nat
  pending_recoveries : Nat
deriving DecidableEq

/-- VNode (vnode.rs lines 37-41): state plus sync sessions plus the in-flight
request map (cookie to (ReqState, deadline)). -/
structure VNode where
  state : VNodeState
  syncs : List (Nat × Synchronization)
  inflight : List (Nat × ReqState × Nat)
deriving DecidableEq

/-- VNodeState::set_status (vnode.rs lines 712-733): a no-op on equal status;
asserts are modelled as none; entering Absent clears the logs. -/
def VNodeState.set_status (s : VNodeState) (now : Nat) (new : VNodeStatus) :
    Option VNodeState :=
  if new = s.status then some s
  else
    match new with
    | .Ready =>
        if s.status = .Recover ∧ s.pending_recoveries ≠ 0 then none
        else some { s with status := new, last_status_change := now }
    | .Absent =>
        if s.pending_recoveries ≠ 0 ∨ s.sync_nodes ≠ [] then none
        else some { s with
          log := s.log.clear
          peers := []
          status := new
          last_status_change := now }
    | _ => some { s with status := new, last_status_change := now }

/-! ### Storage operations (vnode.rs lines 840-908) -/

/-- storage_get: stored container (or empty) filled with the clocks. -/
def VNodeState.storage_get (st : VNodeState) (key : Nat) : DottedCausalContainer :=
  ((assocFind st.storage key).getD DottedCausalContainer.new).fill st.clocks

/-- storage_set_local (vnode.rs lines 851-881): discard the client context,
take a new dot, add the value, strip, persist or delete, log the dot, count
the unflushed write (saving when half the log bound is reached), and return
the filled container. -/
def VNodeState.storage_set_local (st : VNodeState) (selfNode : Nat) (key : Nat)
    (value_opt : Option Nat) (vv : List (Nat × Nat)) :
    VNodeState × DottedCausalContainer × List Event :=
  let dcc0 := (st.storage_get key).discard vv
  let ev := st.clocks.event selfNode
  let st1 : VNodeState := { st with clocks := ev.1 }
  let dot := ev.2
  let dcc1 := match value_opt with
    | some value => dcc0.add selfNode dot value
    | none => dcc0
  let dcc2 := dcc1.strip st1.clocks
  let st2 : VNodeState := { st1 with storage :=
    if dcc2.is_empty then assocRemove st1.storage key else assocSet st1.storage key dcc2 }
  let st3 : VNodeState := { st2 with log := st2.log.logWrite dot key }
  let st4 : VNodeState := { st3 with unflushed_coord_writes := st3.unflushed_coord_writes + 1 }
  if PEER_LOG_SIZE / 2 ≤ st4.unflushed_coord_writes then
    ({ st4 with unflushed_coord_writes := 0 }, dcc2.fill st4.clocks, [Event.saveState false])
  else
    (st4, dcc2.fill st4.clocks, [])

/-- storage_set_remote (vnode.rs lines 883-907): fold the incoming container
into the clocks, sync with the stored one, strip, persist or delete, then log
every surviving dot into the own log or the peer logs. -/
def VNodeState.storage_set_remote (st : VNodeState) (selfNode : Nat) (key : Nat)
    (new_dcc : DottedCausalContainer) : VNodeState :=
  let old_dcc := st.storage_get key
  let clocks := new_dcc.add_to_bvv st.clocks
  let d := (new_dcc.sync old_dcc).strip clocks
  let st1 : VNodeState := { st with
    clocks := clocks
    storage := if d.is_empty then assocRemove st.storage key else assocSet st.storage key d }
  d.versions.foldl
    (fun acc e =>
      if e.1 = selfNode then { acc with log := acc.log.logWrite e.2 key }
      else
        { acc with
          peers := assocSet acc.peers e.1
            (((assocFind acc.peers e.1).getD VNodePeer.new).logWrite e.2 key) })
    st1

/-! ### Request path (vnode.rs lines 397-493) -/

/-- VNode::process_get (vnode.rs lines 447-470): bump the counters, merge a
successful container, and complete exactly when successful equals required or
replies equals total. -/
def VNode.process_get (v : VNode) (cookie : Nat)
    (container_opt : Option DottedCausalContainer) : VNode × List Event :=
  match assocFind v.inflight cookie with
  | none => (v, [])
  | some (st0, dl) =>
      let st1 : ReqState := { st0 with replies := (st0.replies + 1) % 256 }
      let st2 : ReqState := match container_opt with
        | some container =>
            { st1 with
              container := st1.container.sync container
              succesfull := (st1.succesfull + 1) % 256 }
        | none => st1
      if st2.succesfull = st2.required ∨ st2.replies = st2.total then
        ({ v with inflight := assocRemove v.inflight cookie },
         [Event.respondGet cookie st2.token st2.container])
      else
        ({ v with inflight := assocUpdate v.inflight cookie (st2, dl) }, [])

/-- VNode::process_set (vnode.rs lines 472-493). -/
def VNode.process_set (v : VNode) (cookie : Nat) (succesfull : Bool) : VNode × List Event :=
  match assocFind v.inflight cookie with
  | none => (v, [])
  | some (st0, dl) =>
      let st1 : ReqState := { st0 with replies := (st0.replies + 1) % 256 }
      let st2 : ReqState :=
        if succesfull then { st1 with succesfull := (st1.succesfull + 1) % 256 } else st1
      if st2.succesfull = st2.required ∨ st2.replies = st2.total then
        ({ v with inflight := assocRemove v.inflight cookie },
         [Event.respondSet cookie st2.token st2.container])
      else
        ({ v with inflight := assocUpdate v.inflight cookie (st2, dl) }, [])

/-- The replica loop of do_get: read locally through process_get on the own
node, send a RemoteGet to every other replica. -/
def VNode.do_get_fanout (selfNode cookie key : Nat) :
    List Nat → VNode × List Event → VNode × List Event
  | [], acc => acc
  | node :: rest, acc =>
      if node = selfNode then
        let r := acc.1.process_get cookie (some (acc.1.state.storage_get key))
        VNode.do_get_fanout selfNode cookie key rest (r.1, acc.2 ++ r.2)
      else
        VNode.do_get_fanout selfNode cookie key rest
          (acc.1, acc.2 ++ [Event.send node (FabricMsg.remoteGet ⟨cookie, acc.1.state.num, key⟩)])

/-- VNode::do_get (vnode.rs lines 398-419): insert a fresh ReqState with the
hardcoded 1000 ms expiry, then for each replica read locally or send a
RemoteGet.  The insert assert (a colliding cookie) is modelled as none. -/
def VNode.do_get (v : VNode) (selfNode : Nat) (nodes : List Nat) (cookie : Nat) (now : Nat)
    (token : Nat) (key : Nat) : Option (VNode × List Event) :=
  if (assocFind v.inflight cookie).isSome then none
  else
    let v1 : VNode :=
      { v with inflight := v.inflight ++ [(cookie, (ReqState.new token nodes.length, now + 1000))] }
    some (VNode.do_get_fanout selfNode cookie key nodes (v1, []))

/-- The replica loop of do_set: broadcast RemoteSet to every other replica. -/
def VNode.do_set_fanout (selfNode cookie key : Nat) (dcc : DottedCausalContainer) :
    List Nat → VNode × List Event → VNode × List Event
  | [], acc => acc
  | node :: rest, acc =>
      if node ≠ selfNode then
        VNode.do_set_fanout selfNode cookie key dcc rest
          (acc.1, acc.2 ++ [Event.send node (FabricMsg.remoteSet ⟨cookie, acc.1.state.num, key, dcc⟩)])
      else VNode.do_set_fanout selfNode cookie key dcc rest acc

/-- VNode::do_set (vnode.rs lines 421-444): insert a fresh ReqState, write
locally, self-ack through process_set, then broadcast RemoteSet. -/
def VNode.do_set (v : VNode) (selfNode : Nat) (nodes : List Nat) (cookie : Nat) (now : Nat)
    (token : Nat) (key : Nat) (value_opt : Option Nat) (vv : List (Nat × Nat)) :
    Option (VNode × List Event) :=
  if (assocFind v.inflight cookie).isSome then none
  else
    let v1 : VNode :=
      { v with inflight := v.inflight ++ [(cookie, (ReqState.new token nodes.length, now + 1000))] }
    let w := v1.state.storage_set_local selfNode key value_opt vv
    let v2 : VNode := { v1 with state := w.1 }
    let r := v2.process_set cookie true
    some (VNode.do_set_fanout selfNode cookie key w.2.1 nodes (r.1, w.2.2 ++ r.2))

/-! ### Request events and the at-most-once property (C1) -/

/-- Ack and timeout events that drive existing ReqStates. -/
inductive ReqEvent where
  | ackGet (cookie : Nat) (container_opt : Option DottedCausalContainer)
  | ackSet (cookie : Nat) (ok : Bool)
  | expire (now : Nat)

/-- One request-path step: a remote get ack (handler_get_remote_ack), a remote
set ack (handler_set_remote_ack), or the expiry drain of handler_tick
(vnode.rs lines 384-388, pop_expired responding Timeout). -/
def VNode.stepReq (v : VNode) : ReqEvent → VNode × List Event
  | .ackGet cookie copt => v.process_get cookie copt
  | .ackSet cookie ok => v.process_set cookie ok
  | .expire now =>
      ({ v with inflight := v.inflight.filter fun e => decide (¬ e.2.2 ≤ now) },
       (v.inflight.filter fun e => decide (e.2.2 ≤ now)).map
         fun e => Event.respondError e.1 e.2.1.token)

/-- Run a sequence of request-path steps, accumulating the emitted events. -/
def VNode.runReqSteps (v : VNode) : List ReqEvent → VNode × List Event
  | [] => (v, [])
  | e :: rest =>
      let r := v.stepReq e
      let r2 := r.1.runReqSteps rest
      (r2.1, r.2 ++ r2.2)

/-- Is this event a client response for the request with the given cookie. -/
def Event.isRespondFor (c : Nat) : Event → Bool
  | .respondGet c2 _ _ => decide (c2 = c)
  | .respondSet c2 _ _ => decide (c2 = c)
  | .respondError c2 _ => decide (c2 = c)
  | _ => false

theorem nodup_keys_eq {β : Type} {l : List (Nat × β)} (hnd : (l.map Prod.fst).Nodup)
    {e e2 : Nat × β} (he : e ∈ l) (he2 : e2 ∈ l) (hk : e.1 = e2.1) : e = e2 := by
  induction l with
  | nil => simp at he
  | cons hd tl ih =>
      simp only [List.map_cons, List.nodup_cons] at hnd
      rcases List.mem_cons.1 he with h1 | h1 <;> rcases List.mem_cons.1 he2 with h2 | h2
      · rw [h1, h2]
      · exfalso
        apply hnd.1
        rw [h1] at hk
        rw [hk]
        exact List.mem_map_of_mem Prod.fst h2
      · exfalso
        apply hnd.1
        rw [h2] at hk
        rw [← hk]
        exact List.mem_map_of_mem Prod.fst h1
      · exact ih hnd.2 h1 h2

theorem uniq_key_countP {β : Type} (l : List (Nat × β)) (c : Nat)
    (hnd : (l.map Prod.fst).Nodup) : l.countP (fun e => decide (e.1 = c)) ≤ 1 := by
  induction l with
  | nil => simp
  | cons hd tl ih =>
      simp only [List.map_cons, List.nodup_cons] at hnd
      rw [List.countP_cons]
      by_cases hk : hd.1 = c
      · have hz : tl.countP (fun e => decide (e.1 = c)) = 0 := by
          rw [List.countP_eq_zero]
          intro a ha hpa
          apply hnd.1
          have ha1 : a.1 = c := of_decide_eq_true hpa
          rw [hk, ← ha1]
          exact List.mem_map_of_mem Prod.fst ha
        simp [hz, hk]
      · simp [hk, ih hnd.2]

theorem process_get_absent (v : VNode) (cookie c : Nat) (copt : Option DottedCausalContainer)
    (hc : assocFind v.inflight c = none) :
    assocFind (v.process_get cookie copt).1.inflight c = none ∧
    (v.process_get cookie copt).2.countP (Event.isRespondFor c) = 0 := by
  cases hfind : assocFind v.inflight cookie with
  | none => simp [VNode.process_get, hfind, hc]
  | some p =>
      obtain ⟨st0, dl⟩ := p
      have hne : cookie ≠ c := by
        intro h
        rw [h, hc] at hfind
        cases hfind
      simp only [VNode.process_get, hfind]
      split
      · exact ⟨assocFind_none_remove _ _ _ hc, by simp [Event.isRespondFor, hne]⟩
      · exact ⟨assocFind_none_update _ _ _ _ hc, by simp⟩

theorem process_set_absent (v : VNode) (cookie c : Nat) (ok : Bool)
    (hc : assocFind v.inflight c = none) :
    assocFind (v.process_set cookie ok).1.inflight c = none ∧
    (v.process_set cookie ok).2.countP (Event.isRespondFor c) = 0 := by
  cases hfind : assocFind v.inflight cookie with
  | none => simp [VNode.process_set, hfind, hc]
  | some p =>
      obtain ⟨st0, dl⟩ := p
      have hne : cookie ≠ c := by
        intro h
        rw [h, hc] at hfind
        cases hfind
      cases ok with
      | true =>
          simp only [VNode.process_set, hfind, reduceIte]
          split
          · exact ⟨assocFind_none_remove _ _ _ hc, by simp [Event.isRespondFor, hne]⟩
          · exact ⟨assocFind_none_update _ _ _ _ hc, by simp⟩
      | false =>
          simp only [VNode.process_set, hfind, Bool.false_eq_true, if_false]
          split
          · exact ⟨assocFind_none_remove _ _ _ hc, by simp [Event.isRespondFor, hne]⟩
          · exact ⟨assocFind_none_update _ _ _ _ hc, by simp⟩

theorem stepReq_absent (v : VNode) (c : Nat) (e : ReqEvent)
    (hc : assocFind v.inflight c = none) :
    assocFind (v.stepReq e).1.inflight c = none ∧
    (v.stepReq e).2.countP (Event.isRespondFor c) = 0 := by
  cases e with
  | ackGet cookie copt => exact process_get_absent v cookie c copt hc
  | ackSet cookie ok => exact process_set_absent v cookie c ok hc
  | expire now =>
      constructor
      · rw [VNode.stepReq]
        rw [assocFind_eq_none_iff] at hc ⊢
        intro hmem
        exact hc (((List.filter_sublist v.inflight).map Prod.fst).mem hmem)
      · rw [VNode.stepReq, List.countP_eq_zero]
        intro a ha hpa
        rcases List.mem_map.1 ha with ⟨en, hen, hae⟩
        have hmem2 : en ∈ v.inflight := (List.filter_sublist _).subset hen
        rw [← hae] at hpa
        have hen1 : en.1 = c := of_decide_eq_true hpa
        rw [assocFind_eq_none_iff] at hc
        exact hc (hen1 ▸ List.mem_map_of_mem Prod.fst hmem2)

theorem stepReq_nodup (v : VNode) (e : ReqEvent)
    (hnd : (v.inflight.map Prod.fst).Nodup) :
    ((v.stepReq e).1.inflight.map Prod.fst).Nodup := by
  cases e with
  | ackGet cookie copt =>
      show ((v.process_get cookie copt).1.inflight.map Prod.fst).Nodup
      cases hfind : assocFind v.inflight cookie with
      | none => simpa [VNode.process_get, hfind] using hnd
      | some p =>
          obtain ⟨st0, dl⟩ := p
          simp only [VNode.process_get, hfind]
          split
          · exact assocRemove_nodup _ _ hnd
          · exact assocUpdate_nodup _ _ _ hnd
  | ackSet cookie ok =>
      show ((v.process_set cookie ok).1.inflight.map Prod.fst).Nodup
      cases hfind : assocFind v.inflight cookie with
      | none => simpa [VNode.process_set, hfind] using hnd
      | some p =>
          obtain ⟨st0, dl⟩ := p
          cases ok with
          | true =>
              simp only [VNode.process_set, hfind, reduceIte]
              split
              · exact assocRemove_nodup _ _ hnd
              · exact assocUpdate_nodup _ _ _ hnd
          | false =>
              simp only [VNode.process_set, hfind, Bool.false_eq_true, if_false]
              split
              · exact assocRemove_nodup _ _ hnd
              · exact assocUpdate_nodup _ _ _ hnd
  | expire now => exact ((List.filter_sublist _).map Prod.fst).nodup hnd

theorem stepReq_once (v : VNode) (c : Nat) (e : ReqEvent)
    (hnd : (v.inflight.map Prod.fst).Nodup) :
    (v.stepReq e).2.countP (Event.isRespondFor c) ≤ 1 ∧
    (1 ≤ (v.stepReq e).2.countP (Event.isRespondFor c) →
      assocFind (v.stepReq e).1.inflight c = none) := by
  cases e with
  | ackGet cookie copt =>
      simp only [VNode.stepReq]
      cases hfind : assocFind v.inflight cookie with
      | none => simp [VNode.process_get, hfind]
      | some p =>
          obtain ⟨st0, dl⟩ := p
          simp only [VNode.process_get, hfind]
          split
          · by_cases hcc : cookie = c
            · subst hcc
              refine ⟨by simp [Event.isRespondFor, List.countP_cons, List.countP_nil],
                      fun _ => ?_⟩
              exact assocFind_remove_self _ _ hnd
            · simp [Event.isRespondFor, hcc, List.countP_cons, List.countP_nil]
          · simp
  | ackSet cookie ok =>
      simp only [VNode.stepReq]
      cases hfind : assocFind v.inflight cookie with
      | none => simp [VNode.process_set, hfind]
      | some p =>
          obtain ⟨st0, dl⟩ := p
          cases ok with
          | true =>
              simp only [VNode.process_set, hfind, reduceIte]
              split
              · by_cases hcc : cookie = c
                · subst hcc
                  refine ⟨by simp [Event.isRespondFor, List.countP_cons, List.countP_nil],
                          fun _ => ?_⟩
                  exact assocFind_remove_self _ _ hnd
                · simp [Event.isRespondFor, hcc, List.countP_cons, List.countP_nil]
              · simp
          | false =>
              simp only [VNode.process_set, hfind, Bool.false_eq_true, if_false]
              split
              · by_cases hcc : cookie = c
                · subst hcc
                  refine ⟨by simp [Event.isRespondFor, List.countP_cons, List.countP_nil],
                          fun _ => ?_⟩
                  exact assocFind_remove_self _ _ hnd
                · simp [Event.isRespondFor, hcc, List.countP_cons, List.countP_nil]
              · simp
  | expire now =>
      rw [VNode.stepReq]
      have hcount : ((v.inflight.filter fun e => decide (e.2.2 ≤ now)).map
          fun e => Event.respondError e.1 e.2.1.token).countP (Event.isRespondFor c) =
          (v.inflight.filter fun e => decide (e.2.2 ≤ now)).countP
            (fun en => decide (en.1 = c)) := by
        rw [List.countP_map]
        rfl
      constructor
      · rw [hcount]
        exact le_trans ((List.filter_sublist _).countP_le _) (uniq_key_countP _ c hnd)
      · intro hpos
        rw [hcount] at hpos
        have hex := List.countP_pos_iff.1 (by omega :
          0 < (v.inflight.filter fun e => decide (e.2.2 ≤ now)).countP
                (fun en => decide (en.1 = c)))
        rcases hex with ⟨en, henf, hpc⟩
        have hen1 : en.1 = c := of_decide_eq_true hpc
        have henm : en ∈ v.inflight := (List.filter_sublist _).subset henf
        have hexp : (decide (en.2.2 ≤ now)) = true := (List.mem_filter.1 henf).2
        rw [assocFind_eq_none_iff]
        intro hmem
        rcases List.mem_map.1 hmem with ⟨e2, he2f, he2c⟩
        have he2m : e2 ∈ v.inflight := (List.filter_sublist _).subset he2f
        have hkeep : (decide (¬ e2.2.2 ≤ now)) = true := (List.mem_filter.1 he2f).2
        have heq : en = e2 := nodup_keys_eq hnd henm he2m (by rw [hen1, he2c])
        rw [← heq] at hkeep
        have h1 := of_decide_eq_true hexp
        have h2 := of_decide_eq_true hkeep
        exact h2 h1

theorem runReq_absent (v : VNode) (c : Nat) (steps : List ReqEvent)
    (hc : assocFind v.inflight c = none) :
    (v.runReqSteps steps).2.countP (Event.isRespondFor c) = 0 := by
  induction steps generalizing v with
  | nil => rfl
  | cons e rest ih =>
      have h1 := stepReq_absent v c e hc
      simp only [VNode.runReqSteps, List.countP_append]
      rw [h1.2, ih _ h1.1]

theorem c1_at_most_once (v : VNode) (c : Nat) (steps : List ReqEvent)
    (hnd : (v.inflight.map Prod.fst).Nodup) :
    (v.runReqSteps steps).2.countP (Event.isRespondFor c) ≤ 1 := by
  induction steps generalizing v with
  | nil => simp [VNode.runReqSteps]
  | cons e rest ih =>
      simp only [VNode.runReqSteps, List.countP_append]
      have h1 := stepReq_once v c e hnd
      by_cases hz : (v.stepReq e).2.countP (Event.isRespondFor c) = 0
      · rw [hz]
        simpa using ih _ (stepReq_nodup v e hnd)
      · have hone : (v.stepReq e).2.countP (Event.isRespondFor c) = 1 := by omega
        rw [hone, runReq_absent _ _ _ (h1.2 (by omega))]

/-- C1: a get or set request completes, that is the client is responded to and
the ReqState is removed from the in-flight map, exactly when the arriving
reply makes successful equal required or makes replies equal total; and
across any sequence of acks and expirations no cookie is responded to twice. -/
theorem c1_request_completion (v : VNode) (cookie : Nat) (st0 : ReqState) (dl : Nat)
    (copt : Option DottedCausalContainer) (ok : Bool)
    (hnd : (v.inflight.map Prod.fst).Nodup)
    (hfind : assocFind v.inflight cookie = some (st0, dl)) :
    (((v.process_get cookie copt).2.countP (Event.isRespondFor cookie) = 1 ∧
        assocFind (v.process_get cookie copt).1.inflight cookie = none) ↔
      ((match copt with
        | some _ => (st0.succesfull + 1) % 256 = st0.required
        | none => st0.succesfull = st0.required) ∨
       (st0.replies + 1) % 256 = st0.total)) ∧
    (((v.process_set cookie ok).2.countP (Event.isRespondFor cookie) = 1 ∧
        assocFind (v.process_set cookie ok).1.inflight cookie = none) ↔
      ((if ok then (st0.succesfull + 1) % 256 = st0.required
        else st0.succesfull = st0.required) ∨
       (st0.replies + 1) % 256 = st0.total)) ∧
    (∀ steps : List ReqEvent,
      (v.runReqSteps steps).2.countP (Event.isRespondFor cookie) ≤ 1) := by
  refine ⟨?_, ?_, fun steps => c1_at_most_once v cookie steps hnd⟩
  · simp only [VNode.process_get, hfind]
    cases copt with
    | none =>
        by_cases hcond : st0.succesfull = st0.required ∨ (st0.replies + 1) % 256 = st0.total
        · simp only [if_pos hcond]
          simp [Event.isRespondFor, assocFind_remove_self _ _ hnd, hcond]
        · simp only [if_neg hcond]
          simp [hcond]
    | some container =>
        by_cases hcond : (st0.succesfull + 1) % 256 = st0.required ∨
            (st0.replies + 1) % 256 = st0.total
        · simp only [if_pos hcond]
          simp [Event.isRespondFor, assocFind_remove_self _ _ hnd, hcond]
        · simp only [if_neg hcond]
          simp [hcond]
  · cases ok with
    | false =>
        simp only [VNode.process_set, hfind, Bool.false_eq_true, if_false]
        by_cases hcond : st0.succesfull = st0.required ∨ (st0.replies + 1) % 256 = st0.total
        · simp only [if_pos hcond]
          simp [Event.isRespondFor, assocFind_remove_self _ _ hnd, hcond]
        · simp only [if_neg hcond]
          simp [hcond]
    | true =>
        simp only [VNode.process_set, hfind, reduceIte]
        by_cases hcond : (st0.succesfull + 1) % 256 = st0.required ∨
            (st0.replies + 1) % 256 = st0.total
        · simp only [if_pos hcond]
          simp [Event.isRespondFor, assocFind_remove_self _ _ hnd, hcond]
        · simp only [if_neg hcond]
          simp [hcond]

/-- Sample vnode for the C1 witness: one in-flight get with required 1,
total 2, no replies yet. -/
def c1SampleVNode : VNode :=
  ⟨⟨0, VNodeStatus.Ready, 0, [], VNodePeer.new, [], [], 0, [], 0⟩, [],
   [(5, (⟨0, 0, 1, 2, false, DottedCausalContainer.new, 7⟩, 99))]⟩

/-- Witness for C1: the first successful reply completes the request. -/
theorem c1_request_completion_witness :
    (c1SampleVNode.process_get 5 (some DottedCausalContainer.new)).2.countP
        (Event.isRespondFor 5) = 1 ∧
      assocFind (c1SampleVNode.process_get 5 (some DottedCausalContainer.new)).1.inflight 5 =
        none :=
  (c1_request_completion c1SampleVNode 5 ⟨0, 0, 1, 2, false, DottedCausalContainer.new, 7⟩ 99
      (some DottedCausalContainer.new) true (by decide) (by decide)).1.mpr (by decide)

/-! ### C2: the claimed ReqState initialization of do_get -/

/-- The property asserted by C2, parameterized by the configured read
consistency level and the configured request timeout: every do_get inserts a
ReqState with total N, required equal to the consistency level, zero counters
and a deadline of now plus the timeout.  The replica set is restricted to
remote nodes so that the inserted entry is still observable after the call. -/
def reqStateInitClaim (consistency_read : Nat) (request_timeout : Nat) : Prop :=
  ∀ (v : VNode) (selfNode : Nat) (nodes : List Nat) (cookie now token key : Nat)
    (out : VNode × List Event),
    selfNode ∉ nodes →
    VNode.do_get v selfNode nodes cookie now token key = some out →
    ∃ st dl, assocFind out.1.inflight cookie = some (st, dl) ∧
      st.total = nodes.length ∧ st.required = consistency_read ∧
      st.replies = 0 ∧ st.succesfull = 0 ∧ dl = now + request_timeout

/-- Counterexample for C2: with a configured read consistency of 2 (and the
default 1000 ms timeout) the claim is false, because do_get hardcodes
required 1; evaluated on an empty vnode with one remote replica. -/
theorem c2_reqstate_counterexample : ¬ reqStateInitClaim 2 1000 := by
  intro h
  obtain ⟨st, dl, hfind, htot, hreq, hrep, hsuc, hdl⟩ :=
    h ⟨⟨0, VNodeStatus.Ready, 0, [], VNodePeer.new, [], [], 0, [], 0⟩, [], []⟩ 0 [7] 1 0 9 5
      (⟨⟨0, VNodeStatus.Ready, 0, [], VNodePeer.new, [], [], 0, [], 0⟩, [],
        [(1, (⟨0, 0, 1, 1, false, DottedCausalContainer.new, 9⟩, 1000))]⟩,
       [Event.send 7 (FabricMsg.remoteGet ⟨1, 0, 5⟩)])
      (by decide) (by decide)
  have hval : assocFind
      [(1, ((⟨0, 0, 1, 1, false, DottedCausalContainer.new, 9⟩ : ReqState), 1000))] 1 =
      some (⟨0, 0, 1, 1, false, DottedCausalContainer.new, 9⟩, 1000) := by decide
  rw [hval] at hfind
  have hst : st = ⟨0, 0, 1, 1, false, DottedCausalContainer.new, 9⟩ :=
    (Prod.mk.injEq _ _ _ _ ▸ (Option.some.injEq _ _ ▸ hfind)).1.symm
  rw [hst] at hreq
  exact absurd hreq (by decide)

theorem do_get_fanout_remote (selfNode cookie key : Nat) (nodes : List Nat)
    (acc : VNode × List Event) (hno : ∀ n ∈ nodes, n ≠ selfNode) :
    (VNode.do_get_fanout selfNode cookie key nodes acc).1 = acc.1 := by
  induction nodes generalizing acc with
  | nil => rfl
  | cons n rest ih =>
      rw [VNode.do_get_fanout]
      rw [if_neg (hno n (List.mem_cons_self n rest))]
      exact ih _ fun m hm => hno m (List.mem_cons_of_mem n hm)

/-- C2 amended: the ReqState inserted by do_get has required hardcoded to 1,
total equal to the replica count as a u8 cast, zero counters, and a deadline
of now plus the hardcoded 1000 ms, independent of any configuration. -/
theorem c2_reqstate_amended (v : VNode) (selfNode : Nat) (nodes : List Nat)
    (cookie now token key : Nat) (out : VNode × List Event)
    (hno : selfNode ∉ nodes)
    (hdo : VNode.do_get v selfNode nodes cookie now token key = some out) :
    assocFind out.1.inflight cookie = some (ReqState.new token nodes.length, now + 1000) ∧
    (ReqState.new token nodes.length).required = 1 ∧
    (ReqState.new token nodes.length).total = nodes.length % 256 ∧
    (ReqState.new token nodes.length).replies = 0 ∧
    (ReqState.new token nodes.length).succesfull = 0 := by
  refine ⟨?_, rfl, rfl, rfl, rfl⟩
  rw [VNode.do_get] at hdo
  by_cases hsome : (assocFind v.inflight cookie).isSome
  · rw [if_pos hsome] at hdo
    cases hdo
  · rw [if_neg hsome] at hdo
    have hnone : assocFind v.inflight cookie = none := by
      cases hfd : assocFind v.inflight cookie with
      | none => rfl
      | some p => rw [hfd] at hsome; simp at hsome
    have hfan := do_get_fanout_remote selfNode cookie key nodes
      ({ v with inflight :=
          v.inflight ++ [(cookie, (ReqState.new token nodes.length, now + 1000))] }, [])
      (fun n hn he => hno (he ▸ hn))
    have hout : out.1 = { v with inflight :=
        v.inflight ++ [(cookie, (ReqState.new token nodes.length, now + 1000))] } := by
      have := congrArg Prod.fst (Option.some.inj hdo)
      rw [← this, hfan]
    rw [hout]
    exact assocFind_append_right _ _ _ hnone

/-- Witness for the amended C2 on a concrete do_get call. -/
theorem c2_reqstate_amended_witness :
    assocFind [(1, ((⟨0, 0, 1, 1, false, DottedCausalContainer.new, 9⟩ : ReqState), 1000))] 1 =
      some (ReqState.new 9 1, 0 + 1000) :=
  (c2_reqstate_amended
    ⟨⟨0, VNodeStatus.Ready, 0, [], VNodePeer.new, [], [], 0, [], 0⟩, [], []⟩ 0 [7] 1 0 9 5
    (⟨⟨0, VNodeStatus.Ready, 0, [], VNodePeer.new, [], [], 0, [], 0⟩, [],
      [(1, (⟨0, 0, 1, 1, false, DottedCausalContainer.new, 9⟩, 1000))]⟩,
     [Event.send 7 (FabricMsg.remoteGet ⟨1, 0, 5⟩)])
    (by decide) (by decide)).1

/-! ### Synchronization sessions (vnode.rs lines 910-1261) -/

/-- Synchronization::new_bootstrap_sender (vnode.rs lines 911-934): snapshot
the clocks and scan the whole storage. -/
def Synchronization.new_bootstrap_sender (state : VNodeState) (src : Nat) (msg : MsgSyncStart)
    (now : Nat) : Synchronization :=
  .bootstrapSender msg.cookie src state.clocks (.scan state.storage) [] 0 now

/-- Synchronization::new_sync_sender (vnode.rs lines 936-989): snapshot the
own clock entry, pick the log of the target dimension, and choose the
log-driven iterator when the snapshotted log still covers the base known by
the peer, else fall back to a full storage scan filtered on the target
dimension.  The unwraps of the msg fields are modelled as none. -/
def Synchronization.new_sync_sender (selfNode : Nat) (state : VNodeState) (src : Nat)
    (msg : MsgSyncStart) (now : Nat) : Option Synchronization :=
  match msg.target, msg.clock_in_peer with
  | some target, some clock_in_peer =>
      let clock_snapshot := (assocFind state.clocks selfNode).getD default
      let log_snapshot :=
        if target = selfNode then state.log
        else (assocFind state.peers target).getD VNodePeer.new
      let iterator : IterFn :=
        if log_snapshot.min_version ≤ clock_in_peer.base then
          .logDriven ((clock_snapshot.delta clock_in_peer).filterMap fun v => log_snapshot.get v)
        else
          .scan (state.storage.filter fun e =>
            e.2.versions.any fun d => decide (d.1 = target) && decide (clock_in_peer.base < d.2))
      some (.syncSender clock_in_peer clock_snapshot iterator [] msg.cookie src target 0 now)
  | _, _ => none

/-- Synchronization::send_start (vnode.rs lines 991-1019): receivers reset
last_receive and send the SyncStart; senders are unreachable. -/
def Synchronization.send_start (s : Synchronization) (state : VNodeState) (now : Nat) :
    Option (Synchronization × List Event) :=
  match s with
  | .syncReceiver cip cookie peer target count _ ss =>
      some (.syncReceiver cip cookie peer target count now ss,
        [Event.send peer (FabricMsg.syncStart ⟨cookie, state.num, some target, some cip⟩)])
  | .bootstrapReceiver cookie peer count _ ss =>
      some (.bootstrapReceiver cookie peer count now ss,
        [Event.send peer (FabricMsg.syncStart ⟨cookie, state.num, none, none⟩)])
  | _ => none

/-- Synchronization::send_success_fin (vnode.rs lines 1021-1039). -/
def Synchronization.send_success_fin (s : Synchronization) (state : VNodeState) :
    Option (List Event) :=
  match s with
  | .syncSender _ csnap _ _ cookie peer target _ _ =>
      some [Event.send peer (FabricMsg.syncFin
        ⟨cookie, state.num, .ok (BitmappedVersionVector.from_version target csnap)⟩)]
  | .bootstrapSender cookie peer csnap _ _ _ _ =>
      some [Event.send peer (FabricMsg.syncFin ⟨cookie, state.num, .ok csnap⟩)]
  | _ => none

/-- The window fill loop of send_next: pull from the iterator while the window
has room, sending each entry with the next sequence number; the budget is the
remaining room, consumed one entry per iteration. -/
def fillLoop (peer cookie vnum timeout : Nat) :
    Nat → IterFn → Storage → List (Nat × (Nat × DottedCausalContainer) × Nat) → Nat →
    IterFn × List (Nat × (Nat × DottedCausalContainer) × Nat) × Nat × List Event
  | 0, iter, _, inflight, count => (iter, inflight, count, [])
  | budget + 1, iter, storage, inflight, count =>
      match iter.next storage with
      | none => (iter, inflight, count, [])
      | some ((k, dcc), iter2) =>
          let r := fillLoop peer cookie vnum timeout budget iter2 storage
            (inflight ++ [(count, ((k, dcc), timeout))]) (count + 1)
          (r.1, r.2.1, r.2.2.1,
           Event.send peer (FabricMsg.syncSend ⟨cookie, vnum, count, k, dcc⟩) :: r.2.2.2)

/-- Synchronization::send_next (vnode.rs lines 1041-1098): retransmit expired
window entries re-armed with a fresh deadline, fill the window from the
iterator, and send the success Fin when the window ends up empty. -/
def Synchronization.send_next (s : Synchronization) (state : VNodeState) (now : Nat) :
    Option (Synchronization × List Event) :=
  match s with
  | .syncSender cip csnap iter inflight cookie peer target count lr =>
      let timeout := now + SYNC_INFLIGHT_TIMEOUT_MS
      let resend := (inflight.filter fun e => decide (e.2.2 ≤ now)).map fun e =>
        Event.send peer (FabricMsg.syncSend ⟨cookie, state.num, e.1, e.2.1.1, e.2.1.2⟩)
      let inflight2 := inflight.map fun e =>
        if e.2.2 ≤ now then (e.1, (e.2.1, timeout)) else e
      let r := fillLoop peer cookie state.num timeout (SYNC_INFLIGHT_MAX - inflight2.length)
        iter state.storage inflight2 count
      let s2 : Synchronization := .syncSender cip csnap r.1 r.2.1 cookie peer target r.2.2.1 lr
      if r.2.1.isEmpty then
        (s2.send_success_fin state).map fun fin => (s2, resend ++ r.2.2.2 ++ fin)
      else some (s2, resend ++ r.2.2.2)
  | .bootstrapSender cookie peer csnap iter inflight count lr =>
      let timeout := now + SYNC_INFLIGHT_TIMEOUT_MS
      let resend := (inflight.filter fun e => decide (e.2.2 ≤ now)).map fun e =>
        Event.send peer (FabricMsg.syncSend ⟨cookie, state.num, e.1, e.2.1.1, e.2.1.2⟩)
      let inflight2 := inflight.map fun e =>
        if e.2.2 ≤ now then (e.1, (e.2.1, timeout)) else e
      let r := fillLoop peer cookie state.num timeout (SYNC_INFLIGHT_MAX - inflight2.length)
        iter state.storage inflight2 count
      let s2 : Synchronization := .bootstrapSender cookie peer csnap r.1 r.2.1 r.2.2.1 lr
      if r.2.1.isEmpty then
        (s2.send_success_fin state).map fun fin => (s2, resend ++ r.2.2.2 ++ fin)
      else some (s2, resend ++ r.2.2.2)
  | _ => none

/-- Synchronization::on_start (vnode.rs lines 1176-1182). -/
def Synchronization.on_start (s : Synchronization) (state : VNodeState) (now : Nat) :
    Option (Synchronization × List Event) :=
  match s with
  | .syncSender _ _ _ _ _ _ _ _ _ => s.send_next state now
  | .bootstrapSender _ _ _ _ _ _ _ => s.send_next state now
  | _ => none

/-- Synchronization::on_cancel (vnode.rs lines 1100-1115): receivers send an
error Fin to release the peer side. -/
def Synchronization.on_cancel (s : Synchronization) (state : VNodeState) : Option (List Event) :=
  match s with
  | .bootstrapReceiver cookie peer _ _ _ =>
      some [Event.send peer (FabricMsg.syncFin ⟨cookie, state.num, .err .BadVNodeStatus⟩)]
  | .syncReceiver _ cookie peer _ _ _ _ =>
      some [Event.send peer (FabricMsg.syncFin ⟨cookie, state.num, .err .BadVNodeStatus⟩)]
  | _ => none

/-- Synchronization::on_remove (vnode.rs lines 1117-1145): a regular receiver
leaves sync_nodes; a reverse receiver decrements pending_recoveries and, on
the last one, sets Ready and fast-forwards the clocks; every receiver also
sends a best-effort error Fin.  The assert that reverse receivers are only
removed in Recover, and the usize underflow, are modelled as none. -/
def Synchronization.on_remove (s : Synchronization) (selfNode : Nat) (state : VNodeState)
    (now : Nat) : Option (VNodeState × List Event) := do
  let st1 ←
    match s with
    | .syncReceiver _ _ peer target _ _ _ =>
        if target = peer then
          some { state with sync_nodes := state.sync_nodes.erase peer }
        else if state.status ≠ VNodeStatus.Recover then none
        else if state.pending_recoveries = 0 then none
        else
          let st : VNodeState :=
            { state with pending_recoveries := state.pending_recoveries - 1 }
          if st.pending_recoveries = 0 then
            (st.set_status now .Ready).map fun st2 =>
              { st2 with clocks := st2.clocks.advance selfNode RECOVER_FAST_FORWARD }
          else some st
    | _ => some state
  match s with
  | .bootstrapReceiver cookie peer _ _ _ =>
      some (st1, [Event.send peer (FabricMsg.syncFin ⟨cookie, st1.num, .err .BadVNodeStatus⟩)])
  | .syncReceiver _ cookie peer _ _ _ _ =>
      some (st1, [Event.send peer (FabricMsg.syncFin ⟨cookie, st1.num, .err .BadVNodeStatus⟩)])
  | _ => some (st1, [])

/-- Synchronization::on_tick (vnode.rs lines 1147-1174): senders time out to
Done or keep pumping the window; receivers time out to Done (RetryBoostrap
for bootstrap) or retransmit the start while nothing was received. -/
def Synchronization.on_tick (s : Synchronization) (state : VNodeState) (now : Nat) :
    Option (Synchronization × List Event × SyncResult) :=
  match s with
  | .syncSender _ _ _ _ _ _ _ _ lr =>
      if SYNC_TIMEOUT_MS < now - lr then some (s, [], .Done)
      else (s.send_next state now).map fun r => (r.1, r.2, .Continue)
  | .bootstrapSender _ _ _ _ _ _ lr =>
      if SYNC_TIMEOUT_MS < now - lr then some (s, [], .Done)
      else (s.send_next state now).map fun r => (r.1, r.2, .Continue)
  | .syncReceiver _ _ _ _ count lr _ =>
      if SYNC_TIMEOUT_MS < now - lr then some (s, [], .Done)
      else if count = 0 ∧ SYNC_INFLIGHT_TIMEOUT_MS < now - lr then
        (s.send_start state now).map fun r => (r.1, r.2, .Continue)
      else some (s, [], .Continue)
  | .bootstrapReceiver _ _ count lr _ =>
      if SYNC_TIMEOUT_MS < now - lr then some (s, [], .RetryBoostrap)
      else if count = 0 ∧ SYNC_INFLIGHT_TIMEOUT_MS < now - lr then
        (s.send_start state now).map fun r => (r.1, r.2, .Continue)
      else some (s, [], .Continue)

/-- Synchronization::on_fin (vnode.rs lines 1184-1223). -/
def Synchronization.on_fin (s : Synchronization) (selfNode : Nat) (state : VNodeState)
    (msg : MsgSyncFin) (now : Nat) : Option (VNodeState × List Event × SyncResult) :=
  match s with
  | .syncReceiver _ _ peer _ _ _ _ =>
      match msg.result with
      | .ok bvv =>
          some ({ state with clocks := state.clocks.join bvv },
            [Event.saveState false, Event.storageFsync,
             Event.send peer (FabricMsg.syncFin msg)], .Done)
      | .err _ => some (state, [], .Done)
  | .syncSender _ _ _ _ _ _ _ _ _ => some (state, [], .Done)
  | .bootstrapReceiver _ peer _ _ _ =>
      match msg.result with
      | .ok bvv => do
          let st1 : VNodeState := { state with clocks := state.clocks.merge bvv }
          let st2 ← st1.set_status now .Ready
          some (st2,
            [Event.saveState false, Event.storageFsync,
             Event.promotePendingNode st2.num selfNode,
             Event.send peer (FabricMsg.syncFin msg)], .Done)
      | .err _ => some (state, [], .RetryBoostrap)
  | .bootstrapSender _ _ _ _ _ _ _ => some (state, [], .Done)

/-- Synchronization::on_send (vnode.rs lines 1225-1248): receivers apply the
remote write, ack the sequence number, bump count and reset last_receive. -/
def Synchronization.on_send (s : Synchronization) (selfNode : Nat) (state : VNodeState)
    (msg : MsgSyncSend) (now : Nat) : Option (Synchronization × VNodeState × List Event) :=
  match s with
  | .syncReceiver cip cookie peer target count _ ss =>
      some (.syncReceiver cip cookie peer target (count + 1) now ss,
        (state.storage_set_remote selfNode msg.key msg.container,
         [Event.send peer (FabricMsg.syncAck ⟨msg.cookie, state.num, msg.seq⟩)]))
  | .bootstrapReceiver cookie peer count _ ss =>
      some (.bootstrapReceiver cookie peer (count + 1) now ss,
        (state.storage_set_remote selfNode msg.key msg.container,
         [Event.send peer (FabricMsg.syncAck ⟨msg.cookie, state.num, msg.seq⟩)]))
  | _ => none

/-- Synchronization::on_ack (vnode.rs lines 1250-1261): senders drop the acked
window entry, reset last_receive and pump the window again. -/
def Synchronization.on_ack (s : Synchronization) (state : VNodeState) (msg : MsgSyncAck)
    (now : Nat) : Option (Synchronization × List Event) :=
  match s with
  | .syncSender cip csnap iter inflight cookie peer target count _ =>
      let s2 : Synchronization :=
        .syncSender cip csnap iter (assocRemove inflight msg.seq) cookie peer target count now
      s2.send_next state now
  | .bootstrapSender cookie peer csnap iter inflight count _ =>
      let s2 : Synchronization :=
        .bootstrapSender cookie peer csnap iter (assocRemove inflight msg.seq) count now
      s2.send_next state now
  | _ => none

/-! ### Fabric handlers and the orchestrator (vnode.rs lines 249-700) -/

/-- VNode::handler_get_remote (vnode.rs lines 500-517). -/
def VNode.handler_get_remote (v : VNode) (src : Nat) (msg : MsgRemoteGet) :
    VNode × List Event :=
  if v.state.status = .Ready ∨ v.state.status = .Zombie then
    (v, [Event.send src (FabricMsg.remoteGetAck
      ⟨msg.cookie, msg.vnode, .ok (v.state.storage_get msg.key)⟩)])
  else
    (v, [Event.send src (FabricMsg.remoteGetAck ⟨msg.cookie, msg.vnode, .err .BadVNodeStatus⟩)])

/-- VNode::handler_get_remote_ack (vnode.rs lines 496-498). -/
def VNode.handler_get_remote_ack (v : VNode) (msg : MsgRemoteGetAck) : VNode × List Event :=
  v.process_get msg.cookie msg.result.toOption

/-- VNode::handler_set_remote (vnode.rs lines 527-539). -/
def VNode.handler_set_remote (v : VNode) (selfNode : Nat) (src : Nat) (msg : MsgRemoteSet) :
    VNode × List Event :=
  if v.state.status = .Ready then
    ({ v with state := v.state.storage_set_remote selfNode msg.key msg.container },
     [Event.send src (FabricMsg.remoteSetAck ⟨msg.vnode, msg.cookie, .ok ()⟩)])
  else
    (v, [Event.send src (FabricMsg.remoteSetAck ⟨msg.vnode, msg.cookie, .err .BadVNodeStatus⟩)])

/-- VNode::handler_set_remote_ack (vnode.rs lines 541-543). -/
def VNode.handler_set_remote_ack (v : VNode) (msg : MsgRemoteSetAck) : VNode × List Event :=
  v.process_set msg.cookie msg.result.is_ok

/-- The status gate of handler_sync_start (vnode.rs lines 547-549): Ready, or
Zombie once more than the zombie timeout has passed since the status change. -/
abbrev syncStartAllowed (status : VNodeStatus) (last_status_change now : Nat) : Prop :=
  status = .Ready ∨
    (status = .Zombie ∧ ZOMBIE_TIMEOUT_MS < now - last_status_change)

/-- VNode::handler_sync_start (vnode.rs lines 546-567): reject with an error
Fin when the status gate fails; create and start the matching sender session
for a new cookie; an already-known cookie is a complete no-op. -/
def VNode.handler_sync_start (v : VNode) (selfNode : Nat) (src : Nat) (msg : MsgSyncStart)
    (now : Nat) : Option (VNode × List Event) :=
  if ¬ syncStartAllowed v.state.status v.state.last_status_change now then
    some (v, [Event.send src (FabricMsg.syncFin ⟨msg.cookie, msg.vnode, .err .BadVNodeStatus⟩)])
  else if (assocFind v.syncs msg.cookie).isSome then some (v, [])
  else do
    let sync ←
      match msg.target, msg.clock_in_peer with
      | none, none => some (Synchronization.new_bootstrap_sender v.state src msg now)
      | some _, some _ => Synchronization.new_sync_sender selfNode v.state src msg now
      | _, _ => none
    let r ← sync.on_start v.state now
    some ({ v with syncs := v.syncs ++ [(msg.cookie, r.1)] }, r.2)

/-- VNode::handler_sync_send (vnode.rs lines 569-578). -/
def VNode.handler_sync_send (v : VNode) (selfNode : Nat) (src : Nat) (msg : MsgSyncSend)
    (now : Nat) : Option (VNode × List Event) :=
  if ¬ (v.state.status = .Ready ∨ v.state.status = .Recover ∨
        v.state.status = .Bootstrap) then
    some (v, [Event.send src (FabricMsg.syncFin ⟨msg.cookie, msg.vnode, .err .BadVNodeStatus⟩)])
  else
    match assocFind v.syncs msg.cookie with
    | none =>
        some (v,
          [Event.send src (FabricMsg.syncFin ⟨msg.cookie, msg.vnode, .err .CookieNotFound⟩)])
    | some s =>
        (s.on_send selfNode v.state msg now).map fun r =>
          ({ v with state := r.2.1, syncs := assocUpdate v.syncs msg.cookie r.1 }, r.2.2)

/-- VNode::handler_sync_ack (vnode.rs lines 580-589). -/
def VNode.handler_sync_ack (v : VNode) (src : Nat) (msg : MsgSyncAck) (now : Nat) :
    Option (VNode × List Event) :=
  if ¬ (v.state.status = .Ready ∨ v.state.status = .Zombie) then
    some (v, [Event.send src (FabricMsg.syncFin ⟨msg.cookie, msg.vnode, .err .BadVNodeStatus⟩)])
  else
    match assocFind v.syncs msg.cookie with
    | none =>
        some (v,
          [Event.send src (FabricMsg.syncFin ⟨msg.cookie, msg.vnode, .err .CookieNotFound⟩)])
    | some s =>
        (s.on_ack v.state msg now).map fun r =>
          ({ v with syncs := assocUpdate v.syncs msg.cookie r.1 }, r.2)

/-- VNode::start_bootstrap (vnode.rs lines 631-656): pick the first non-self
node of the (already shuffled) replica list, enter Bootstrap, insert the
receiver and send the start; with no candidate become Ready.  The asserts are
modelled as none. -/
def VNode.start_bootstrap (v : VNode) (nodes : List Nat) (selfNode newCookie now : Nat) :
    Option (VNode × List Event) :=
  if ¬ (v.state.status = .Bootstrap ∨ v.state.status = .Absent) then none
  else
    match nodes.find? fun n => decide (n ≠ selfNode) with
    | some node => do
        let st ← v.state.set_status now .Bootstrap
        if (assocFind v.syncs newCookie).isSome then none
        else do
          let b : Synchronization := .bootstrapReceiver newCookie node 0 now 0
          let r ← b.send_start st now
          some ({ v with state := st, syncs := v.syncs ++ [(newCookie, r.1)] }, r.2)
    | none => do
        let st ← v.state.set_status now .Ready
        some ({ v with state := st }, [])

/-- VNode::handler_sync_fin (vnode.rs lines 591-628): status-gated; a known
cookie dispatches on_fin and removes the session on Done or RetryBoostrap
(re-bootstrapping on the latter); an unknown cookie with a successful result
is answered with a CookieNotFound error Fin, while an unknown cookie with an
error result is dropped silently. -/
def VNode.handler_sync_fin (v : VNode) (selfNode src : Nat) (msg : MsgSyncFin)
    (nodes : List Nat) (newCookie now : Nat) : Option (VNode × List Event) :=
  if ¬ (v.state.status = .Ready ∨ v.state.status = .Recover ∨ v.state.status = .Zombie ∨
        v.state.status = .Bootstrap) then
    some (v, [Event.send src (FabricMsg.syncFin ⟨msg.cookie, msg.vnode, .err .BadVNodeStatus⟩)])
  else
    match assocFind v.syncs msg.cookie with
    | some s => do
        let r ← s.on_fin selfNode v.state msg now
        match r.2.2 with
        | .Continue => some ({ v with state := r.1 }, r.2.1)
        | .Done => do
            let rr ← s.on_remove selfNode r.1 now
            some ({ v with state := rr.1, syncs := assocRemove v.syncs msg.cookie },
                  r.2.1 ++ rr.2)
        | .RetryBoostrap => do
            let rr ← s.on_remove selfNode r.1 now
            let v2 : VNode := { v with state := rr.1, syncs := assocRemove v.syncs msg.cookie }
            let rb ← v2.start_bootstrap nodes selfNode newCookie now
            some (rb.1, r.2.1 ++ rr.2 ++ rb.2)
    | none =>
        if msg.result.is_ok then
          some (v,
            [Event.send src (FabricMsg.syncFin ⟨msg.cookie, msg.vnode, .err .CookieNotFound⟩)])
        else some (v, [])

/-- Cancel a batch of receiver sessions in order, collecting the error Fins. -/
def cancelAll (state : VNodeState) : List (Nat × Synchronization) → Option (List Event)
  | [] => some []
  | e :: rest => do
      let es ← e.2.on_cancel state
      let rest2 ← cancelAll state rest
      some (es ++ rest2)

/-- Tick a batch of sessions in order against a fixed state. -/
def tickSyncs (state : VNodeState) (now : Nat) :
    List (Nat × Synchronization) →
      Option (List (Nat × (Synchronization × List Event × SyncResult)))
  | [] => some []
  | e :: rest => do
      let r ← e.2.on_tick state now
      let rs ← tickSyncs state now rest
      some ((e.1, r) :: rs)

/-- Removing a batch of sessions in order, applying on_remove side effects. -/
def removeSyncs (selfNode now : Nat) :
    List (Nat × Synchronization) → VNodeState → Option (VNodeState × List Event)
  | [], st => some (st, [])
  | (_, s) :: rest, st => do
      let r ← s.on_remove selfNode st now
      let r2 ← removeSyncs selfNode now rest r.1
      some (r2.1, r.2 ++ r2.2)

/-- Is the session an incoming one (a receiver variant). -/
def Synchronization.isReceiver : Synchronization → Bool
  | .syncReceiver _ _ _ _ _ _ _ => true
  | .bootstrapReceiver _ _ _ _ _ => true
  | _ => false

/-- VNode::handler_dht_change (vnode.rs lines 309-355): ownership revocation
cancels the incoming sessions (error Fin per receiver, then the on_remove
side effects) and moves to Zombie, or to Absent when the status read after
the removals is still Recover; Zombie is fast-recommissioned to Ready; Absent
re-enters by bootstrap; the remaining agreeing pairs are no-ops and every
other transition is a programming error (none). -/
def VNode.handler_dht_change (v : VNode) (selfNode : Nat) (nodes : List Nat)
    (newCookie now : Nat) (x_status : VNodeStatus) : Option (VNode × List Event) :=
  match v.state.status, x_status with
  | .Ready, .Absent | .Bootstrap, .Absent | .Recover, .Absent => do
      let receivers := v.syncs.filter fun e => e.2.isReceiver
      let cancelEvents ← cancelAll v.state receivers
      let r ← removeSyncs selfNode now receivers v.state
      let keep := v.syncs.filter fun e => ! e.2.isReceiver
      let st2 ←
        if r.1.status = .Recover then r.1.set_status now .Absent
        else r.1.set_status now .Zombie
      some ({ v with state := st2, syncs := keep }, cancelEvents ++ r.2)
  | .Zombie, .Absent => some (v, [])
  | .Zombie, .Ready => do
      let st ← v.state.set_status now .Ready
      some ({ v with state := st }, [])
  | .Absent, .Ready => v.start_bootstrap nodes selfNode newCookie now
  | .Bootstrap, .Ready => some (v, [])
  | .Recover, .Ready => some (v, [])
  | a, b => if a = b then some (v, []) else none

/-- Process the terminated sessions of a tick (vnode.rs lines 372-381):
RetryBoostrap re-bootstraps, then the session is removed with its on_remove
side effects. -/
def processTerminated (selfNode : Nat) (nodes : List Nat) (newCookie now : Nat) :
    List (Nat × SyncResult) → VNode → Option (VNode × List Event)
  | [], v => some (v, [])
  | (cookie, result) :: rest, v => do
      let q ←
        match result with
        | SyncResult.RetryBoostrap => v.start_bootstrap nodes selfNode newCookie now
        | _ => some (v, ([] : List Event))
      let s ← assocFind q.1.syncs cookie
      let r ← s.on_remove selfNode q.1.state now
      let v2 : VNode := { q.1 with state := r.1, syncs := assocRemove q.1.syncs cookie }
      let r2 ← processTerminated selfNode nodes newCookie now rest v2
      some (r2.1, q.2 ++ r.2 ++ r2.2)

/-- VNode::handler_tick (vnode.rs lines 358-395): tick every session and
remove the terminated ones, drain expired requests with Timeout responses,
then retire an idle Zombie to Absent once the zombie timeout has elapsed. -/
def VNode.handler_tick (v : VNode) (selfNode : Nat) (nodes : List Nat) (newCookie : Nat)
    (now : Nat) : Option (VNode × List Event) := do
  let stepped ← tickSyncs v.state now v.syncs
  let tickEvents := (stepped.map fun e => e.2.2.1).flatten
  let terminated := stepped.filterMap fun e =>
    if e.2.2.2 = SyncResult.Continue then none else some (e.1, e.2.2.2)
  let v1 : VNode := { v with syncs := stepped.map fun e => (e.1, e.2.1) }
  let r ← processTerminated selfNode nodes newCookie now terminated v1
  let v2 := r.1
  let expired := v2.inflight.filter fun e => decide (e.2.2 ≤ now)
  let v3 : VNode := { v2 with inflight := v2.inflight.filter fun e => decide (¬ e.2.2 ≤ now) }
  let timeoutEvents := expired.map fun e => Event.respondError e.1 e.2.1.token
  let st ←
    if v3.state.status = .Zombie ∧ v3.syncs = [] ∧ v3.inflight = [] ∧
        ZOMBIE_TIMEOUT_MS < now - v3.state.last_status_change then
      v3.state.set_status now .Absent
    else some v3.state
  some ({ v3 with state := st }, tickEvents ++ r.2 ++ timeoutEvents)

/-! ### C4: exit from Recover through on_remove of reverse receivers -/

/-- C4: removing a reverse-sync receiver (target different from peer) of a
vnode in Recover decrements pending_recoveries; the removal that reaches 0
sets the status to Ready and fast-forwards the clocks entry of the local node
by advance(self, RECOVER_FAST_FORWARD); any removal that leaves the count
above 0 changes neither the status nor the clocks.  In both cases the removed
receiver additionally sends a best-effort error Fin to its peer. -/
theorem c4_recover_exit (selfNode now : Nat) (st : VNodeState)
    (cip : BitmappedVersion) (cookie peer target count lr ss : Nat)
    (hrec : st.status = .Recover) (htp : target ≠ peer) :
    (st.pending_recoveries = 1 →
      Synchronization.on_remove (.syncReceiver cip cookie peer target count lr ss)
          selfNode st now =
        some ({ st with
                  status := .Ready
                  last_status_change := now
                  pending_recoveries := 0
                  clocks := st.clocks.advance selfNode RECOVER_FAST_FORWARD },
              [Event.send peer (FabricMsg.syncFin ⟨cookie, st.num, .err .BadVNodeStatus⟩)])) ∧
    (1 < st.pending_recoveries →
      Synchronization.on_remove (.syncReceiver cip cookie peer target count lr ss)
          selfNode st now =
        some ({ st with pending_recoveries := st.pending_recoveries - 1 },
              [Event.send peer (FabricMsg.syncFin ⟨cookie, st.num, .err .BadVNodeStatus⟩)])) := by
  constructor
  · intro hp1
    have h2 : ¬ st.status ≠ VNodeStatus.Recover := by simp [hrec]
    have h3 : ¬ st.pending_recoveries = 0 := by omega
    simp [Synchronization.on_remove, VNodeState.set_status, htp, h2, h3, hp1, hrec]
  · intro hpgt
    have h2 : ¬ st.status ≠ VNodeStatus.Recover := by simp [hrec]
    have h3 : ¬ st.pending_recoveries = 0 := by omega
    have h4 : ¬ st.pending_recoveries - 1 = 0 := by omega
    simp [Synchronization.on_remove, VNodeState.set_status, htp, h2, h3, h4]

/-- Witness for C4: the last reverse receiver of a Recover vnode flips it to
Ready with the clocks fast-forwarded. -/
theorem c4_recover_exit_witness :
    Synchronization.on_remove
        (.syncReceiver ⟨0, []⟩ 11 2 1 0 0 0) 1
        ⟨3, .Recover, 0, [], VNodePeer.new, [], [], 0, [], 1⟩ 50 =
      some (⟨3, .Ready, 50, [(1, ⟨1000000, []⟩)], VNodePeer.new, [], [], 0, [], 0⟩,
            [Event.send 2 (FabricMsg.syncFin ⟨11, 3, .err .BadVNodeStatus⟩)]) := by
  have h := (c4_recover_exit 1 50 ⟨3, .Recover, 0, [], VNodePeer.new, [], [], 0, [], 1⟩
    ⟨0, []⟩ 11 2 1 0 0 0 rfl (by decide)).1 rfl
  rw [h]
  decide

/-! ### C9: idempotence of handler_sync_start at the session level -/

/-- C9: when the status gate passes and the cookie already has a session, the
handler is a complete no-op, so delivering the same SyncStart twice yields the
same vnode as delivering it once. -/
theorem c9_sync_start_idempotent (v : VNode) (selfNode src : Nat) (msg : MsgSyncStart)
    (now now2 : Nat) :
    (syncStartAllowed v.state.status v.state.last_status_change now →
      (assocFind v.syncs msg.cookie).isSome →
      v.handler_sync_start selfNode src msg now = some (v, [])) ∧
    (∀ out, syncStartAllowed v.state.status v.state.last_status_change now →
      v.handler_sync_start selfNode src msg now = some out →
      syncStartAllowed out.1.state.status out.1.state.last_status_change now2 →
      out.1.handler_sync_start selfNode src msg now2 = some (out.1, [])) := by
  have hnoop : ∀ (w : VNode),
      syncStartAllowed w.state.status w.state.last_status_change now2 →
      (assocFind w.syncs msg.cookie).isSome →
      w.handler_sync_start selfNode src msg now2 = some (w, []) := by
    intro w hall hsome
    rw [VNode.handler_sync_start, if_neg (not_not_intro hall), if_pos hsome]
  constructor
  · intro hall hsome
    rw [VNode.handler_sync_start, if_neg (not_not_intro hall), if_pos hsome]
  · intro out hall h1 hall2
    refine hnoop out.1 hall2 ?_
    rw [VNode.handler_sync_start, if_neg (not_not_intro hall)] at h1
    by_cases hsome : (assocFind v.syncs msg.cookie).isSome
    · rw [if_pos hsome] at h1
      have hout : out = (v, []) := (Option.some.inj h1).symm
      rw [hout]
      exact hsome
    · rw [if_neg hsome] at h1
      have hnone : assocFind v.syncs msg.cookie = none := by
        cases hfd : assocFind v.syncs msg.cookie with
        | none => rfl
        | some p => rw [hfd] at hsome; simp at hsome
      -- the creation path appends the new session under the same cookie
      rcases htg : msg.target with _ | tgt <;>
        rcases hcp : msg.clock_in_peer with _ | cip0 <;>
          rw [htg, hcp] at h1
      · simp only [Option.bind_eq_bind, Option.some_bind] at h1
        cases hst : (Synchronization.new_bootstrap_sender v.state src msg now).on_start
            v.state now with
        | none => rw [hst] at h1; simp at h1
        | some r =>
            rw [hst] at h1
            simp only [Option.some_bind] at h1
            have hout : out = ({ v with syncs := v.syncs ++ [(msg.cookie, r.1)] }, r.2) :=
              (Option.some.inj h1).symm
            rw [hout]
            simp only []
            rw [assocFind_append_right _ _ _ hnone]
            rfl
      · simp at h1
      · simp at h1
      · simp only [Option.bind_eq_bind] at h1
        cases hmk : Synchronization.new_sync_sender selfNode v.state src msg now with
        | none => rw [hmk] at h1; simp at h1
        | some sync =>
            rw [hmk] at h1
            simp only [Option.some_bind] at h1
            cases hst : sync.on_start v.state now with
            | none => rw [hst] at h1; simp at h1
            | some r =>
                rw [hst] at h1
                simp only [Option.some_bind] at h1
                have hout : out = ({ v with syncs := v.syncs ++ [(msg.cookie, r.1)] }, r.2) :=
                  (Option.some.inj h1).symm
                rw [hout]
                simp only []
                rw [assocFind_append_right _ _ _ hnone]
                rfl

/-- Witness for C9: a Ready vnode with the cookie already present ignores the
duplicate SyncStart. -/
theorem c9_sync_start_idempotent_witness :
    VNode.handler_sync_start
        ⟨⟨0, VNodeStatus.Ready, 0, [], VNodePeer.new, [], [], 0, [], 0⟩,
         [(3, Synchronization.bootstrapReceiver 3 2 0 0 0)], []⟩ 1 2 ⟨3, 0, none, none⟩ 10 =
      some (⟨⟨0, VNodeStatus.Ready, 0, [], VNodePeer.new, [], [], 0, [], 0⟩,
             [(3, Synchronization.bootstrapReceiver 3 2 0 0 0)], []⟩, []) :=
  (c9_sync_start_idempotent
    ⟨⟨0, VNodeStatus.Ready, 0, [], VNodePeer.new, [], [], 0, [], 0⟩,
     [(3, Synchronization.bootstrapReceiver 3 2 0 0 0)], []⟩ 1 2 ⟨3, 0, none, none⟩ 10 10).1
    (Or.inl rfl) (by decide)

/-! ### C10: SyncFin for an unknown cookie -/

/-- The property asserted by C10 for the silent-drop part: an incoming SyncFin
whose result is an error and whose cookie is unknown is dropped with no reply
and no state change, in every vnode status. -/
def unknownFinClaim : Prop :=
  ∀ (v : VNode) (selfNode src : Nat) (msg : MsgSyncFin) (nodes : List Nat)
    (newCookie now : Nat),
    assocFind v.syncs msg.cookie = none →
    msg.result.is_ok = false →
    VNode.handler_sync_fin v selfNode src msg nodes newCookie now = some (v, [])

/-- Counterexample for C10 as stated: a vnode in status Absent replies an
error Fin carrying BadVNodeStatus even to an unknown-cookie SyncFin whose
result is an error, so the message is not silently dropped. -/
theorem c10_unknown_fin_counterexample : ¬ unknownFinClaim := by
  intro h
  exact absurd
    (h ⟨⟨0, VNodeStatus.Absent, 0, [], VNodePeer.new, [], [], 0, [], 0⟩, [], []⟩
      1 2 ⟨9, 0, .err .CookieNotFound⟩ [] 99 10 (by decide) (by decide))
    (by decide)

/-- C10 amended: provided the vnode status is Ready, Recover, Zombie or
Bootstrap, an unknown-cookie SyncFin with an error result is silently dropped
with no reply and no state change, and one with an Ok result is answered with
an error Fin carrying CookieNotFound; moreover in any status an unknown-cookie
SyncFin is answered with CookieNotFound only when its result is Ok (a vnode in
Absent replies BadVNodeStatus instead). -/
theorem c10_unknown_fin_amended (v : VNode) (selfNode src : Nat) (msg : MsgSyncFin)
    (nodes : List Nat) (newCookie now : Nat)
    (hck : assocFind v.syncs msg.cookie = none) :
    ((v.state.status = .Ready ∨ v.state.status = .Recover ∨ v.state.status = .Zombie ∨
        v.state.status = .Bootstrap) →
      (msg.result.is_ok = false →
        VNode.handler_sync_fin v selfNode src msg nodes newCookie now = some (v, [])) ∧
      (msg.result.is_ok = true →
        VNode.handler_sync_fin v selfNode src msg nodes newCookie now =
          some (v, [Event.send src
            (FabricMsg.syncFin ⟨msg.cookie, msg.vnode, .err .CookieNotFound⟩)]))) ∧
    (∀ out, VNode.handler_sync_fin v selfNode src msg nodes newCookie now = some out →
      Event.send src (FabricMsg.syncFin ⟨msg.cookie, msg.vnode, .err .CookieNotFound⟩) ∈
          out.2 →
      msg.result.is_ok = true) := by
  constructor
  · intro hst
    rw [VNode.handler_sync_fin, if_neg (not_not_intro hst)]
    constructor
    · intro hok
      rw [hck]
      simp [hok]
    · intro hok
      rw [hck]
      simp [hok]
  · intro out hrun hmem
    by_cases hst : v.state.status = .Ready ∨ v.state.status = .Recover ∨
        v.state.status = .Zombie ∨ v.state.status = .Bootstrap
    · rw [VNode.handler_sync_fin, if_neg (not_not_intro hst), hck] at hrun
      cases hok : msg.result.is_ok with
      | true => rfl
      | false =>
          rw [hok] at hrun
          simp only [Bool.false_eq_true, if_false] at hrun
          cases hrun
          simp at hmem
    · rw [VNode.handler_sync_fin, if_pos hst] at hrun
      cases hrun
      simp at hmem

/-- Witness for the amended C10: a Ready vnode silently drops an error Fin for
an unknown cookie. -/
theorem c10_unknown_fin_amended_witness :
    VNode.handler_sync_fin
        ⟨⟨0, VNodeStatus.Ready, 0, [], VNodePeer.new, [], [], 0, [], 0⟩, [], []⟩
        1 2 ⟨9, 0, .err .CookieNotFound⟩ [] 99 10 =
      some (⟨⟨0, VNodeStatus.Ready, 0, [], VNodePeer.new, [], [], 0, [], 0⟩, [], []⟩, []) :=
  ((c10_unknown_fin_amended
      ⟨⟨0, VNodeStatus.Ready, 0, [], VNodePeer.new, [], [], 0, [], 0⟩, [], []⟩
      1 2 ⟨9, 0, .err .CookieNotFound⟩ [] 99 10 (by decide)).1
    (Or.inl rfl)).1 (by decide)

/-! ### C6: iterator selection and content of a new sync sender -/

theorem logDriven_toList_mem (keys : List Nat) (storage : Storage) (k : Nat)
    (d : DottedCausalContainer) :
    (k, d) ∈ (IterFn.logDriven keys).toList storage ↔
      k ∈ keys ∧ assocFind storage k = some d := by
  rw [IterFn.toList, List.mem_filterMap]
  constructor
  · rintro ⟨a, ha, hfa⟩
    cases hfd : assocFind storage a with
    | none => rw [hfd] at hfa; simp at hfa
    | some dd =>
        rw [hfd] at hfa
        simp only [Option.map_some', Option.some.injEq, Prod.mk.injEq] at hfa
        obtain ⟨hk, hd⟩ := hfa
        subst hk
        subst hd
        exact ⟨ha, hfd⟩
  · rintro ⟨hk, hf⟩
    exact ⟨k, hk, by simp [hf]⟩

/-- C6: a SyncStart creating a SyncSender uses the log-driven iterator exactly
when the snapshotted log for the target dimension still covers the base of
the clock reported by the peer, and that iterator yields exactly the keys
looked up in the log for the versions of the snapshot delta that are present
in storage; otherwise it uses the storage-scan iterator, which yields exactly
the storage entries whose container holds a dot of the target above the
reported base. -/
theorem c6_sync_iterator (selfNode : Nat) (state : VNodeState) (src cookie vnode now : Nat)
    (target : Nat) (cip : BitmappedVersion) (s : Synchronization)
    (hmk : Synchronization.new_sync_sender selfNode state src
        ⟨cookie, vnode, some target, some cip⟩ now = some s) :
    ∃ iter,
      s = .syncSender cip ((assocFind state.clocks selfNode).getD default) iter [] cookie src
            target 0 now ∧
      ((if target = selfNode then state.log
        else (assocFind state.peers target).getD VNodePeer.new).min_version ≤ cip.base →
        ∀ k d, (k, d) ∈ iter.toList state.storage ↔
          ((∃ ver ∈ ((assocFind state.clocks selfNode).getD default).delta cip,
              (if target = selfNode then state.log
               else (assocFind state.peers target).getD VNodePeer.new).get ver = some k) ∧
           assocFind state.storage k = some d)) ∧
      (¬ (if target = selfNode then state.log
          else (assocFind state.peers target).getD VNodePeer.new).min_version ≤ cip.base →
        ∀ k d, (k, d) ∈ iter.toList state.storage ↔
          ((k, d) ∈ state.storage ∧
           ∃ dot ∈ d.versions, dot.1 = target ∧ cip.base < dot.2)) := by
  simp only [Synchronization.new_sync_sender, Option.some.injEq] at hmk
  subst hmk
  refine ⟨_, rfl, ?_, ?_⟩
  · intro hcond k d
    rw [if_pos hcond, logDriven_toList_mem, List.mem_filterMap]
  · intro hcond k d
    rw [if_neg hcond, IterFn.toList, List.mem_filter]
    simp only [List.any_eq_true, Bool.and_eq_true, decide_eq_true_eq]

/-- Witness for C6: a storage entry with a target dot above the reported base
is yielded by the storage-scan iterator of a freshly created sync sender. -/
theorem c6_sync_iterator_witness :
    (77, (⟨[((2, 5), 42)], []⟩ : DottedCausalContainer)) ∈
      IterFn.toList (IterFn.scan [(77, ⟨[((2, 5), 42)], []⟩)])
        [(77, ⟨[((2, 5), 42)], []⟩)] := by
  obtain ⟨iter, hs, _hlog, hscan⟩ := c6_sync_iterator 1
    ⟨0, VNodeStatus.Ready, 0, [], VNodePeer.new, [(2, ⟨0, [(9, 77)]⟩)],
      [(77, ⟨[((2, 5), 42)], []⟩)], 0, [], 0⟩ 4 11 0 6 2 ⟨1, []⟩
    (Synchronization.syncSender ⟨1, []⟩ ⟨0, []⟩ (IterFn.scan [(77, ⟨[((2, 5), 42)], []⟩)]) []
      11 4 2 0 6) (by decide)
  injection hs with h1 h2 h3 h4 h5 h6 h7 h8 h9
  rw [← h3] at hscan
  exact (hscan (by decide) 77 ⟨[((2, 5), 42)], []⟩).mpr (by decide)

/-! ### C3: BadVNodeStatus gating of the remote handlers -/

/-- Does the event reply to dst with the given fabric error. -/
def eventErrTo (dst : Nat) (er : FabricMsgError) : Event → Bool
  | .send d (FabricMsg.remoteGetAck m) => decide (d = dst) && decide (m.result = .err er)
  | .send d (FabricMsg.remoteSetAck m) => decide (d = dst) && decide (m.result = .err er)
  | .send d (FabricMsg.syncFin m) => decide (d = dst) && decide (m.result = .err er)
  | _ => false

theorem fillLoop_events (peer cookie vnum timeout : Nat) (budget : Nat) (iter : IterFn)
    (storage : Storage) (inflight : List (Nat × (Nat × DottedCausalContainer) × Nat))
    (count : Nat) :
    ∀ e ∈ (fillLoop peer cookie vnum timeout budget iter storage inflight count).2.2.2,
      ∃ m, e = Event.send peer (FabricMsg.syncSend m) := by
  induction budget generalizing iter inflight count with
  | zero =>
      intro e he
      simp [fillLoop] at he
  | succ b ih =>
      intro e he
      cases hnx : iter.next storage with
      | none =>
          rw [fillLoop, hnx] at he
          simp at he
      | some r =>
          obtain ⟨⟨k, dcc⟩, iter2⟩ := r
          rw [fillLoop, hnx] at he
          simp only [List.mem_cons] at he
          rcases he with he | he
          · exact ⟨_, he⟩
          · exact ih iter2 _ _ e he

theorem send_next_no_err (s : Synchronization) (state : VNodeState) (now : Nat)
    (r : Synchronization × List Event) (dst : Nat) (er : FabricMsgError)
    (h : s.send_next state now = some r) :
    ∀ e ∈ r.2, eventErrTo dst er e = false := by
  cases s with
  | syncSender cip csnap iter inflight cookie peer target count lr =>
      rw [Synchronization.send_next] at h
      split at h
      · simp only [Synchronization.send_success_fin, Option.map_some'] at h
        obtain rfl := (Option.some.inj h).symm
        intro e he
        simp only [List.mem_append] at he
        rcases he with (he | he) | he
        · rcases List.mem_map.1 he with ⟨en, _, hee⟩
          rw [← hee]
          rfl
        · rcases fillLoop_events _ _ _ _ _ _ _ _ _ e he with ⟨m, hm⟩
          rw [hm]
          rfl
        · simp only [List.mem_singleton] at he
          rw [he]
          simp [eventErrTo]
      · obtain rfl := (Option.some.inj h).symm
        intro e he
        simp only [List.mem_append] at he
        rcases he with he | he
        · rcases List.mem_map.1 he with ⟨en, _, hee⟩
          rw [← hee]
          rfl
        · rcases fillLoop_events _ _ _ _ _ _ _ _ _ e he with ⟨m, hm⟩
          rw [hm]
          rfl
  | bootstrapSender cookie peer csnap iter inflight count lr =>
      rw [Synchronization.send_next] at h
      split at h
      · simp only [Synchronization.send_success_fin, Option.map_some'] at h
        obtain rfl := (Option.some.inj h).symm
        intro e he
        simp only [List.mem_append] at he
        rcases he with (he | he) | he
        · rcases List.mem_map.1 he with ⟨en, _, hee⟩
          rw [← hee]
          rfl
        · rcases fillLoop_events _ _ _ _ _ _ _ _ _ e he with ⟨m, hm⟩
          rw [hm]
          rfl
        · simp only [List.mem_singleton] at he
          rw [he]
          simp [eventErrTo]
      · obtain rfl := (Option.some.inj h).symm
        intro e he
        simp only [List.mem_append] at he
        rcases he with he | he
        · rcases List.mem_map.1 he with ⟨en, _, hee⟩
          rw [← hee]
          rfl
        · rcases fillLoop_events _ _ _ _ _ _ _ _ _ e he with ⟨m, hm⟩
          rw [hm]
          rfl
  | syncReceiver cip cookie peer target count lr ss =>
      simp [Synchronization.send_next] at h
  | bootstrapReceiver cookie peer count lr ss =>
      simp [Synchronization.send_next] at h

theorem on_start_no_err (s : Synchronization) (state : VNodeState) (now : Nat)
    (r : Synchronization × List Event) (dst : Nat) (er : FabricMsgError)
    (h : s.on_start state now = some r) :
    ∀ e ∈ r.2, eventErrTo dst er e = false := by
  cases s with
  | syncSender cip csnap iter inflight cookie peer target count lr =>
      simp only [Synchronization.on_start] at h
      exact send_next_no_err _ _ _ _ _ _ h
  | bootstrapSender cookie peer csnap iter inflight count lr =>
      simp only [Synchronization.on_start] at h
      exact send_next_no_err _ _ _ _ _ _ h
  | syncReceiver cip cookie peer target count lr ss =>
      simp [Synchronization.on_start] at h
  | bootstrapReceiver cookie peer count lr ss =>
      simp [Synchronization.on_start] at h

/-- C3: each of the four remote handlers replies to the sender with an error
carrying BadVNodeStatus, and leaves the vnode unchanged, exactly when the
receiving status is outside the allowed set of that message type: RemoteGet
needs Ready or Zombie, RemoteSet needs Ready, SyncSend needs Ready or Recover
or Bootstrap, and SyncStart needs Ready, or Zombie only after more than the
zombie timeout since the last status change. -/
theorem c3_badstatus_gating (v : VNode) (selfNode src now : Nat)
    (g : MsgRemoteGet) (sm : MsgRemoteSet) (ssm : MsgSyncSend) (stm : MsgSyncStart) :
    (((v.handler_get_remote src g).2.any (eventErrTo src .BadVNodeStatus) = true ↔
        ¬ (v.state.status = .Ready ∨ v.state.status = .Zombie)) ∧
     (¬ (v.state.status = .Ready ∨ v.state.status = .Zombie) →
        v.handler_get_remote src g =
          (v, [Event.send src
            (FabricMsg.remoteGetAck ⟨g.cookie, g.vnode, .err .BadVNodeStatus⟩)]))) ∧
    (((v.handler_set_remote selfNode src sm).2.any (eventErrTo src .BadVNodeStatus) = true ↔
        ¬ v.state.status = .Ready) ∧
     (¬ v.state.status = .Ready →
        v.handler_set_remote selfNode src sm =
          (v, [Event.send src
            (FabricMsg.remoteSetAck ⟨sm.vnode, sm.cookie, .err .BadVNodeStatus⟩)]))) ∧
    (((∃ out, v.handler_sync_send selfNode src ssm now = some out ∧
          out.2.any (eventErrTo src .BadVNodeStatus) = true) ↔
        ¬ (v.state.status = .Ready ∨ v.state.status = .Recover ∨
            v.state.status = .Bootstrap)) ∧
     (¬ (v.state.status = .Ready ∨ v.state.status = .Recover ∨
          v.state.status = .Bootstrap) →
        v.handler_sync_send selfNode src ssm now =
          some (v, [Event.send src
            (FabricMsg.syncFin ⟨ssm.cookie, ssm.vnode, .err .BadVNodeStatus⟩)]))) ∧
    (((∃ out, v.handler_sync_start selfNode src stm now = some out ∧
          out.2.any (eventErrTo src .BadVNodeStatus) = true) ↔
        ¬ syncStartAllowed v.state.status v.state.last_status_change now) ∧
     (¬ syncStartAllowed v.state.status v.state.last_status_change now →
        v.handler_sync_start selfNode src stm now =
          some (v, [Event.send src
            (FabricMsg.syncFin ⟨stm.cookie, stm.vnode, .err .BadVNodeStatus⟩)]))) := by
  refine ⟨⟨?_, ?_⟩, ⟨?_, ?_⟩, ⟨?_, ?_⟩, ⟨?_, ?_⟩⟩
  · by_cases hall : v.state.status = .Ready ∨ v.state.status = .Zombie
    · rw [VNode.handler_get_remote, if_pos hall]
      simp [eventErrTo, hall]
    · rw [VNode.handler_get_remote, if_neg hall]
      simp [eventErrTo, hall]
  · intro hall
    rw [VNode.handler_get_remote, if_neg hall]
  · by_cases hall : v.state.status = .Ready
    · rw [VNode.handler_set_remote, if_pos hall]
      simp [eventErrTo, hall]
    · rw [VNode.handler_set_remote, if_neg hall]
      simp [eventErrTo, hall]
  · intro hall
    rw [VNode.handler_set_remote, if_neg hall]
  · constructor
    · rintro ⟨out, hout, hbad⟩
      by_cases hall : v.state.status = .Ready ∨ v.state.status = .Recover ∨
          v.state.status = .Bootstrap
      · exfalso
        rw [VNode.handler_sync_send, if_neg (not_not_intro hall)] at hout
        rcases List.any_eq_true.1 hbad with ⟨e, he, hpe⟩
        cases hck : assocFind v.syncs ssm.cookie with
        | none =>
            simp only [hck] at hout
            obtain rfl := (Option.some.inj hout).symm
            simp only [List.mem_singleton] at he
            rw [he] at hpe
            simp [eventErrTo] at hpe
        | some s =>
            simp only [hck] at hout
            cases hsnd : s.on_send selfNode v.state ssm now with
            | none => rw [hsnd] at hout; simp at hout
            | some r =>
                rw [hsnd] at hout
                simp only [Option.map_some'] at hout
                obtain rfl := (Option.some.inj hout).symm
                cases s with
                | syncReceiver cip ck pr tg cnt lr ss2 =>
                    simp only [Synchronization.on_send, Option.some.injEq] at hsnd
                    rw [← hsnd] at he
                    simp only [List.mem_singleton] at he
                    rw [he] at hpe
                    simp [eventErrTo] at hpe
                | bootstrapReceiver ck pr cnt lr ss2 =>
                    simp only [Synchronization.on_send, Option.some.injEq] at hsnd
                    rw [← hsnd] at he
                    simp only [List.mem_singleton] at he
                    rw [he] at hpe
                    simp [eventErrTo] at hpe
                | syncSender cip csnap iter inflight ck pr tg cnt lr =>
                    simp [Synchronization.on_send] at hsnd
                | bootstrapSender ck pr csnap iter inflight cnt lr =>
                    simp [Synchronization.on_send] at hsnd
      · exact hall
    · intro hall
      refine ⟨(v, [Event.send src
          (FabricMsg.syncFin ⟨ssm.cookie, ssm.vnode, .err .BadVNodeStatus⟩)]), ?_, ?_⟩
      · rw [VNode.handler_sync_send, if_pos hall]
      · simp [eventErrTo]
  · intro hall
    rw [VNode.handler_sync_send, if_pos hall]
  · constructor
    · rintro ⟨out, hout, hbad⟩
      by_cases hall : syncStartAllowed v.state.status v.state.last_status_change now
      · exfalso
        rw [VNode.handler_sync_start, if_neg (not_not_intro hall)] at hout
        rcases List.any_eq_true.1 hbad with ⟨e, he, hpe⟩
        by_cases hsome : (assocFind v.syncs stm.cookie).isSome
        · rw [if_pos hsome] at hout
          obtain rfl := (Option.some.inj hout).symm
          simp at he
        · rw [if_neg hsome] at hout
          rcases htg : stm.target with _ | tgt <;>
            rcases hcp : stm.clock_in_peer with _ | cip0 <;>
              rw [htg, hcp] at hout
          · simp only [Option.bind_eq_bind, Option.some_bind] at hout
            cases hst : (Synchronization.new_bootstrap_sender v.state src stm now).on_start
                v.state now with
            | none => rw [hst] at hout; simp at hout
            | some r =>
                rw [hst] at hout
                simp only [Option.some_bind] at hout
                obtain rfl := (Option.some.inj hout).symm
                have := on_start_no_err _ _ _ _ src .BadVNodeStatus hst e he
                rw [this] at hpe
                cases hpe
          · simp at hout
          · simp at hout
          · simp only [Option.bind_eq_bind] at hout
            cases hmk : Synchronization.new_sync_sender selfNode v.state src stm now with
            | none => rw [hmk] at hout; simp at hout
            | some sync =>
                rw [hmk] at hout
                simp only [Option.some_bind] at hout
                cases hst : sync.on_start v.state now with
                | none => rw [hst] at hout; simp at hout
                | some r =>
                    rw [hst] at hout
                    simp only [Option.some_bind] at hout
                    obtain rfl := (Option.some.inj hout).symm
                    have := on_start_no_err _ _ _ _ src .BadVNodeStatus hst e he
                    rw [this] at hpe
                    cases hpe
      · exact hall
    · intro hall
      refine ⟨(v, [Event.send src
          (FabricMsg.syncFin ⟨stm.cookie, stm.vnode, .err .BadVNodeStatus⟩)]), ?_, ?_⟩
      · rw [VNode.handler_sync_start, if_pos hall]
      · simp [eventErrTo]
  · intro hall
    rw [VNode.handler_sync_start, if_pos hall]

/-- Witness for C3: a vnode in Recover rejects a RemoteGet with an error ack
carrying BadVNodeStatus and is left unchanged. -/
theorem c3_badstatus_gating_witness :
    VNode.handler_get_remote
        ⟨⟨0, VNodeStatus.Recover, 0, [], VNodePeer.new, [], [], 0, [], 1⟩, [], []⟩ 2
        ⟨7, 0, 5⟩ =
      (⟨⟨0, VNodeStatus.Recover, 0, [], VNodePeer.new, [], [], 0, [], 1⟩, [], []⟩,
       [Event.send 2 (FabricMsg.remoteGetAck ⟨7, 0, .err .BadVNodeStatus⟩)]) :=
  (c3_badstatus_gating
    ⟨⟨0, VNodeStatus.Recover, 0, [], VNodePeer.new, [], [], 0, [], 1⟩, [], []⟩ 1 2 10
    ⟨7, 0, 5⟩ ⟨7, 0, 5, DottedCausalContainer.new⟩ ⟨7, 0, 0, 5, DottedCausalContainer.new⟩
    ⟨7, 0, none, none⟩).1.2 (by decide)

/-! ### C7: Zombie drain on tick -/

/-- C7: a Zombie vnode with no sync sessions, no in-flight requests (and the
Recover bookkeeping empty, as it always is in Zombie) transitions to Absent
on a tick exactly when more than the zombie timeout has elapsed since the
last status change; hence the first tick falling within one tick interval
after the deadline already finds it Absent, so an idle Zombie reaches Absent
within the zombie timeout plus one tick. -/
theorem c7_zombie_drain (v : VNode) (selfNode : Nat) (nodes : List Nat) (newCookie now : Nat)
    (hsy : v.syncs = []) (hin : v.inflight = []) (hz : v.state.status = .Zombie)
    (hp : v.state.pending_recoveries = 0) (hsn : v.state.sync_nodes = []) :
    ∃ out, v.handler_tick selfNode nodes newCookie now = some out ∧
      (out.1.state.status = .Absent ↔
        ZOMBIE_TIMEOUT_MS < now - v.state.last_status_change) ∧
      (∀ gap, v.state.last_status_change + ZOMBIE_TIMEOUT_MS < now →
        now ≤ v.state.last_status_change + ZOMBIE_TIMEOUT_MS + gap →
        out.1.state.status = .Absent) := by
  obtain ⟨st, sy, infl⟩ := v
  simp only at hsy hin hz hp hsn
  subst hsy
  subst hin
  by_cases ht : ZOMBIE_TIMEOUT_MS < now - st.last_status_change
  · refine ⟨({ state := { st with
        log := st.log.clear
        peers := []
        status := .Absent
        last_status_change := now }, syncs := [], inflight := [] }, []), ?_, ?_, ?_⟩
    · simp only [VNode.handler_tick, tickSyncs, Option.bind_eq_bind, Option.some_bind,
        processTerminated, List.filterMap_nil, List.filter_nil, List.map_nil,
        List.flatten_nil]
      rw [if_pos ⟨hz, trivial, trivial, ht⟩]
      have hne : VNodeStatus.Absent ≠ st.status := by rw [hz]; decide
      rw [VNodeState.set_status, if_neg hne]
      have hcond : ¬ (st.pending_recoveries ≠ 0 ∨ st.sync_nodes ≠ []) := by
        simp [hp, hsn]
      rw [if_neg hcond]
      simp
    · simp only
      constructor
      · intro _; exact ht
      · intro _; trivial
    · intro gap _ _
      trivial
  · refine ⟨({ state := st, syncs := [], inflight := [] }, []), ?_, ?_, ?_⟩
    · simp only [VNode.handler_tick, tickSyncs, Option.bind_eq_bind, Option.some_bind,
        processTerminated, List.filterMap_nil, List.filter_nil, List.map_nil,
        List.flatten_nil]
      rw [if_neg ?hcnd]
      · simp
      case hcnd =>
        intro hc
        exact ht hc.2.2.2
    · simp only
      constructor
      · intro habs
        rw [habs] at hz
        cases hz
      · intro hc
        exact absurd hc ht
    · intro gap h1 _
      have h1x : st.last_status_change + ZOMBIE_TIMEOUT_MS < now := h1
      exact absurd (show ZOMBIE_TIMEOUT_MS < now - st.last_status_change by omega) ht

/-- Witness for C7: an idle Zombie whose timeout elapsed becomes Absent. -/
theorem c7_zombie_drain_witness :
    ∃ out, VNode.handler_tick
        ⟨⟨0, VNodeStatus.Zombie, 0, [], VNodePeer.new, [], [], 0, [], 0⟩, [], []⟩
        1 [] 99 6201 = some out ∧ out.1.state.status = .Absent := by
  obtain ⟨out, hrun, hiff, _⟩ := c7_zombie_drain
    ⟨⟨0, VNodeStatus.Zombie, 0, [], VNodePeer.new, [], [], 0, [], 0⟩, [], []⟩
    1 [] 99 6201 rfl rfl rfl rfl rfl
  exact ⟨out, hrun, hiff.mpr (by decide)⟩

/-! ### C5: DHT change to Absent from Ready, Bootstrap or Recover -/

/-- The peer node of a session. -/
def Synchronization.peerId : Synchronization → Nat
  | .syncSender _ _ _ _ _ peer _ _ _ => peer
  | .syncReceiver _ _ peer _ _ _ _ => peer
  | .bootstrapSender _ peer _ _ _ _ _ => peer
  | .bootstrapReceiver _ peer _ _ _ => peer

/-- The cookie of a session. -/
def Synchronization.cookieId : Synchronization → Nat
  | .syncSender _ _ _ _ cookie _ _ _ _ => cookie
  | .syncReceiver _ cookie _ _ _ _ _ => cookie
  | .bootstrapSender cookie _ _ _ _ _ _ => cookie
  | .bootstrapReceiver cookie _ _ _ _ => cookie

/-- A regular incoming session: a bootstrap receiver, or a sync receiver whose
target is the peer itself (an ordinary anti-entropy sync). -/
def Synchronization.isRegularReceiver : Synchronization → Bool
  | .syncReceiver _ _ peer target _ _ _ => decide (target = peer)
  | .bootstrapReceiver _ _ _ _ _ => true
  | _ => false

/-- A reverse incoming session: a sync receiver whose target differs from the
peer (created by start_sync_recover, counted by pending_recoveries). -/
def Synchronization.isReverseReceiver : Synchronization → Bool
  | .syncReceiver _ _ peer target _ _ _ => decide (target ≠ peer)
  | _ => false

/-- The BadVNodeStatus error Fin that on_cancel and on_remove send to the
peer of an incoming session of vnode number num. -/
def recvFin (num : Nat) (e : Nat × Synchronization) : Event :=
  Event.send e.2.peerId
    (FabricMsg.syncFin ⟨e.2.cookieId, num, FabricResult.err FabricMsgError.BadVNodeStatus⟩)

/-- C5 exactly as claimed: after a DHT change to Absent the status is Zombie
from Ready or Bootstrap and Absent directly from Recover. -/
def dhtToAbsentClaim : Prop :=
  ∀ (v : VNode) (selfNode : Nat) (nodes : List Nat) (newCookie now : Nat)
    (out : VNode × List Event),
    v.handler_dht_change selfNode nodes newCookie now .Absent = some out →
    (v.state.status = .Recover → out.1.state.status = .Absent) ∧
    ((v.state.status = .Ready ∨ v.state.status = .Bootstrap) →
      out.1.state.status = .Zombie)

/-- A Recover vnode holding the single reverse receiver its pending_recoveries
counts: the configuration start_sync_recover leaves behind. -/
def c5Vnode : VNode :=
  ⟨⟨3, .Recover, 0, [], VNodePeer.new, [], [], 0, [], 1⟩,
   [(11, .syncReceiver ⟨0, []⟩ 11 2 1 0 0 0)], []⟩

/-- C5 counterexample: on the vnode above, the Recover to Absent change ends
in Zombie, not Absent: removing the last reverse receiver already sets the
status to Ready inside on_remove, so the Recover test after the removals
fails and the Zombie branch is taken. -/
theorem c5_dht_absent_counterexample : ¬ dhtToAbsentClaim := by
  intro h
  rcases hco : VNode.handler_dht_change c5Vnode 1 [] 99 50 .Absent with _ | out
  · have hs : (VNode.handler_dht_change c5Vnode 1 [] 99 50 .Absent).isSome = true := by
      decide
    rw [hco] at hs
    cases hs
  · have habs := (h c5Vnode 1 [] 99 50 out hco).1 rfl
    have hmap : (VNode.handler_dht_change c5Vnode 1 [] 99 50 .Absent).map
        (fun o => o.1.state.status) = some VNodeStatus.Zombie := by decide
    rw [hco] at hmap
    have hz : out.1.state.status = VNodeStatus.Zombie := Option.some.inj hmap
    rw [habs] at hz
    cases hz

/-- cancelAll over incoming sessions: one BadVNodeStatus Fin per receiver. -/
theorem cancelAll_receivers (st : VNodeState) :
    ∀ rs : List (Nat × Synchronization), (∀ e ∈ rs, e.2.isReceiver = true) →
      cancelAll st rs = some (rs.map (recvFin st.num))
  | [], _ => rfl
  | (c, s) :: rest, h => by
      have hrest := cancelAll_receivers st rest fun e he => h e (List.mem_cons_of_mem _ he)
      have hhead := h (c, s) (List.mem_cons_self _ _)
      cases s with
      | syncSender a b c d e f g i j => cases hhead
      | bootstrapSender a b c d e f g => cases hhead
      | syncReceiver cip ck pr tg ct lr ss =>
          simp only [cancelAll, Synchronization.on_cancel, Option.bind_eq_bind,
            Option.some_bind, hrest, List.map_cons]
          rfl
      | bootstrapReceiver ck pr ct lr ss =>
          simp only [cancelAll, Synchronization.on_cancel, Option.bind_eq_bind,
            Option.some_bind, hrest, List.map_cons]
          rfl

/-- One unfolding step of removeSyncs. -/
theorem removeSyncs_cons (selfNode now c : Nat) (s : Synchronization)
    (rest : List (Nat × Synchronization)) (st : VNodeState) :
    removeSyncs selfNode now ((c, s) :: rest) st =
      (s.on_remove selfNode st now).bind fun r =>
        (removeSyncs selfNode now rest r.1).bind fun r2 => some (r2.1, r.2 ++ r2.2) := rfl

/-- removeSyncs over regular receivers: it succeeds, sends one Fin per
receiver, and preserves the status, the number and pending_recoveries. -/
theorem removeSyncs_regular (selfNode now : Nat) :
    ∀ (rs : List (Nat × Synchronization)) (st : VNodeState),
      (∀ e ∈ rs, e.2.isRegularReceiver = true) →
      ∃ st2, removeSyncs selfNode now rs st = some (st2, rs.map (recvFin st.num)) ∧
        st2.status = st.status ∧ st2.num = st.num ∧
        st2.pending_recoveries = st.pending_recoveries
  | [], st, _ => ⟨st, rfl, rfl, rfl, rfl⟩
  | (c, s) :: rest, st, h => by
      have hhead := h (c, s) (List.mem_cons_self _ _)
      cases s with
      | syncSender a b c d e f g i j => cases hhead
      | bootstrapSender a b c d e f g => cases hhead
      | syncReceiver cip ck pr tg ct lr ss =>
          have htp : tg = pr := of_decide_eq_true hhead
          obtain ⟨st2, hrun, hs, hn, hp⟩ := removeSyncs_regular selfNode now rest
            { st with sync_nodes := st.sync_nodes.erase pr }
            (fun e he => h e (List.mem_cons_of_mem _ he))
          refine ⟨st2, ?_, hs, hn, hp⟩
          simp only [removeSyncs, Synchronization.on_remove, Option.bind_eq_bind,
            Option.some_bind, htp, reduceIte, hrun, List.map_cons]
          rfl
      | bootstrapReceiver ck pr ct lr ss =>
          obtain ⟨st2, hrun, hs, hn, hp⟩ := removeSyncs_regular selfNode now rest st
            (fun e he => h e (List.mem_cons_of_mem _ he))
          refine ⟨st2, ?_, hs, hn, hp⟩
          simp only [removeSyncs, Synchronization.on_remove, Option.bind_eq_bind,
            Option.some_bind, hrun, List.map_cons]
          rfl

/-- removeSyncs over reverse receivers in Recover, when pending_recoveries
counts exactly the removed list: it succeeds, sends one Fin per receiver, and
the last removal flips the status to Ready. -/
theorem removeSyncs_reverse (selfNode now : Nat) :
    ∀ (rs : List (Nat × Synchronization)) (st : VNodeState),
      (∀ e ∈ rs, e.2.isReverseReceiver = true) →
      st.status = .Recover → st.pending_recoveries = rs.length → 0 < rs.length →
      ∃ st2, removeSyncs selfNode now rs st = some (st2, rs.map (recvFin st.num)) ∧
        st2.status = .Ready ∧ st2.num = st.num ∧ st2.pending_recoveries = 0
  | [], _, _, _, _, hlen => absurd hlen (by decide)
  | (c, s) :: rest, st, h, hst, hp, _ => by
      have hhead := h (c, s) (List.mem_cons_self _ _)
      cases s with
      | syncSender a b c d e f g i j => cases hhead
      | bootstrapSender a b c d e f g => cases hhead
      | bootstrapReceiver ck pr ct lr ss => cases hhead
      | syncReceiver cip ck pr tg ct lr ss =>
          have htp : tg ≠ pr := of_decide_eq_true hhead
          have hpne : st.pending_recoveries ≠ 0 := by
            rw [hp]; simp
          cases rest with
          | nil =>
              have hp1 : st.pending_recoveries = 1 := hp
              have hne1 : ¬ (VNodeStatus.Ready = st.status) := by
                rw [hst]; decide
              have hne2 : ¬ (st.status = VNodeStatus.Recover ∧ (0 : Nat) ≠ 0) := by
                intro hh; exact hh.2 rfl
              have hne0 : ¬ (st.status ≠ VNodeStatus.Recover) := fun hh => hh hst
              have h10n : ¬ ((1 : Nat) = 0) := by decide
              refine ⟨{ st with
                  pending_recoveries := 0
                  status := .Ready
                  last_status_change := now
                  clocks := (BitmappedVersionVector.advance st.clocks selfNode
                    RECOVER_FAST_FORWARD) }, ?_, rfl, rfl, rfl⟩
              simp only [removeSyncs, Synchronization.on_remove, Option.bind_eq_bind,
                Option.some_bind, if_neg htp, if_neg hne0, hp1, if_neg h10n,
                reduceIte, VNodeState.set_status, if_neg hne1, if_neg hne2,
                List.map_cons, List.map_nil, Option.map_some]
              rfl
          | cons r2 rest2 =>
              have hlen2 : 0 < (r2 :: rest2).length := by simp
              have hp2 : st.pending_recoveries - 1 = (r2 :: rest2).length := by
                rw [hp]; simp
              have hpne2 : st.pending_recoveries - 1 ≠ 0 := by
                rw [hp2]; simp
              obtain ⟨st2, hrun, hs, hn, hq⟩ := removeSyncs_reverse selfNode now
                (r2 :: rest2)
                { st with pending_recoveries := st.pending_recoveries - 1 }
                (fun e he => h e (List.mem_cons_of_mem _ he)) hst hp2 hlen2
              refine ⟨st2, ?_, hs, hn, hq⟩
              have hne0 : ¬ (st.status ≠ VNodeStatus.Recover) := fun hh => hh hst
              have hrem : Synchronization.on_remove
                  (Synchronization.syncReceiver cip ck pr tg ct lr ss) selfNode st now =
                  some ({ st with pending_recoveries := st.pending_recoveries - 1 },
                    [Event.send pr (FabricMsg.syncFin
                      ⟨ck, st.num, FabricResult.err FabricMsgError.BadVNodeStatus⟩)]) := by
                simp only [Synchronization.on_remove, Option.bind_eq_bind, Option.some_bind,
                  if_neg htp, if_neg hne0, if_neg hpne, if_neg hpne2]
              rw [removeSyncs_cons, hrem]
              simp only [Option.bind_eq_bind, Option.some_bind, hrun, List.map_cons]
              rfl

/-- C5 amended: a DHT change to Absent cancels every incoming session (each
receiver peer is sent a BadVNodeStatus error Fin by on_cancel and a second one
by on_remove), drops them from the session map, and ends in Zombie both from
Ready or Bootstrap (with regular incoming sessions) and from Recover when the
reverse receivers counted by pending_recoveries are removed: the last removal
already flips the status to Ready inside on_remove, so the Recover test that
guards the direct move to Absent fails and the Zombie branch is taken. -/
theorem c5_dht_absent_amended (v : VNode) (selfNode : Nat) (nodes : List Nat)
    (newCookie now : Nat) :
    ((v.state.status = .Ready ∨ v.state.status = .Bootstrap) →
      (∀ e ∈ v.syncs.filter (fun e => e.2.isReceiver), e.2.isRegularReceiver = true) →
      ∃ out, v.handler_dht_change selfNode nodes newCookie now .Absent = some out ∧
        out.1.state.status = .Zombie ∧
        out.1.syncs = v.syncs.filter (fun e => ! e.2.isReceiver) ∧
        out.2 =
          (v.syncs.filter (fun e => e.2.isReceiver)).map (recvFin v.state.num) ++
          (v.syncs.filter (fun e => e.2.isReceiver)).map (recvFin v.state.num)) ∧
    (v.state.status = .Recover →
      (∀ e ∈ v.syncs.filter (fun e => e.2.isReceiver), e.2.isReverseReceiver = true) →
      v.state.pending_recoveries = (v.syncs.filter (fun e => e.2.isReceiver)).length →
      0 < (v.syncs.filter (fun e => e.2.isReceiver)).length →
      ∃ out, v.handler_dht_change selfNode nodes newCookie now .Absent = some out ∧
        out.1.state.status = .Zombie ∧
        out.1.syncs = v.syncs.filter (fun e => ! e.2.isReceiver) ∧
        out.2 =
          (v.syncs.filter (fun e => e.2.isReceiver)).map (recvFin v.state.num) ++
          (v.syncs.filter (fun e => e.2.isReceiver)).map (recvFin v.state.num)) := by
  obtain ⟨st, sy, infl⟩ := v
  simp only
  constructor
  · intro hst hreg
    have hallrecv : ∀ e ∈ sy.filter (fun e => e.2.isReceiver), e.2.isReceiver = true :=
      fun e he => (List.mem_filter.mp he).2
    have hcancel := cancelAll_receivers st (sy.filter fun e => e.2.isReceiver) hallrecv
    obtain ⟨stX, hrun, hsX, hnX, hpX⟩ :=
      removeSyncs_regular selfNode now (sy.filter fun e => e.2.isReceiver) st hreg
    have hne : ¬ (stX.status = VNodeStatus.Recover) := by
      rcases hst with h | h <;> rw [hsX, h] <;> decide
    have hzne : ¬ (VNodeStatus.Zombie = stX.status) := by
      rcases hst with h | h <;> rw [hsX, h] <;> decide
    have hss : stX.set_status now VNodeStatus.Zombie =
        some { stX with status := .Zombie, last_status_change := now } := by
      rw [VNodeState.set_status, if_neg hzne]
      all_goals decide
    rcases hst with hst | hst <;>
      refine ⟨(⟨{ stX with status := VNodeStatus.Zombie, last_status_change := now },
          sy.filter (fun e => ! e.2.isReceiver), infl⟩,
          (sy.filter (fun e => e.2.isReceiver)).map (recvFin st.num) ++
          (sy.filter (fun e => e.2.isReceiver)).map (recvFin st.num)),
          ?_, rfl, rfl, rfl⟩ <;>
      simp only [VNode.handler_dht_change, hst, Option.bind_eq_bind, hcancel,
        Option.some_bind, hrun, if_neg hne, hss]
  · intro hst hrev hp hlen
    have hallrecv : ∀ e ∈ sy.filter (fun e => e.2.isReceiver), e.2.isReceiver = true :=
      fun e he => (List.mem_filter.mp he).2
    have hcancel := cancelAll_receivers st (sy.filter fun e => e.2.isReceiver) hallrecv
    obtain ⟨stX, hrun, hsX, hnX, hpX⟩ :=
      removeSyncs_reverse selfNode now (sy.filter fun e => e.2.isReceiver) st hrev hst hp hlen
    have hne : ¬ (stX.status = VNodeStatus.Recover) := by
      rw [hsX]; decide
    have hzne : ¬ (VNodeStatus.Zombie = stX.status) := by
      rw [hsX]; decide
    have hss : stX.set_status now VNodeStatus.Zombie =
        some { stX with status := .Zombie, last_status_change := now } := by
      rw [VNodeState.set_status, if_neg hzne]
      all_goals decide
    refine ⟨(⟨{ stX with status := VNodeStatus.Zombie, last_status_change := now },
        sy.filter (fun e => ! e.2.isReceiver), infl⟩,
        (sy.filter (fun e => e.2.isReceiver)).map (recvFin st.num) ++
        (sy.filter (fun e => e.2.isReceiver)).map (recvFin st.num)),
        ?_, rfl, rfl, rfl⟩
    simp only [VNode.handler_dht_change, hst, Option.bind_eq_bind, hcancel,
      Option.some_bind, hrun, if_neg hne, hss]

/-- Witness for the amended C5: the Recover vnode of the counterexample ends
in Zombie after the DHT change to Absent. -/
theorem c5_dht_absent_amended_witness :
    ∃ out, VNode.handler_dht_change c5Vnode 1 [] 99 50 .Absent = some out ∧
      out.1.state.status = .Zombie := by
  obtain ⟨out, h1, h2, _⟩ := (c5_dht_absent_amended c5Vnode 1 [] 99 50).2
    rfl (by decide) (by decide) (by decide)
  exact ⟨out, h1, h2⟩

end Sucredb
